import Mathlib

/-!
# Verification of the ExchangeIntegrator reconciliation core

Shallow embedding of the Exchange/Thunderbird synchronization services
(`src/services/contact-sync.js`, `src/services/email-sync.js` — which also
carries the `CalendarSync` class — and the `ExchangeClient` retry wrapper)
together with proofs about the reconciliation, deduplication, diffing,
pagination and retry logic.

Modelling conventions:
* JavaScript optional string fields are read by the source only through
  truthiness tests (`if (x.f)`) and `x.f || ''`; both identify a missing
  field with the empty string, so optional string fields are embedded as
  plain `String` with `""` standing for absent.
* Date-valued fields are embedded as `Option Int` (epoch milliseconds);
  the source turns them into numbers with
  `x ? new Date(x).getTime() : 0`, embedded as `Option.getD · 0`.
* `Map` objects built with `forEach`/`set` resolve duplicate keys to the
  last inserted entry; lookups are embedded as `jsMapGet` below.
* Store writes (`browser.contacts.update`, `exchangeClient.updateContact`)
  are embedded as replacing the addressed item's fields with the converted
  object handed over by the source.
* Fallible external calls are embedded as `Except String`-valued
  operations of an injected client record, mirroring the dependency
  injection of `this.exchangeClient` in the source.
-/

namespace ExchangeIntegrator

/-- JavaScript `String.prototype.includes` on character lists. -/
def listContainsSub (pat : List Char) : List Char → Bool
  | [] => pat.isEmpty
  | c :: rest => pat.isPrefixOf (c :: rest) || listContainsSub pat rest

/-- JavaScript `s.includes(pat)`. -/
def jsIncludes (s pat : String) : Bool :=
  listContainsSub pat.toList s.toList

/-- Lookup in a JS `Map` built by iterating `xs` and calling
`map.set(key x, x)`: the *last* entry with the key wins. -/
def jsMapGet (key : α → String) (xs : List α) (k : String) : Option α :=
  (xs.filter (fun x => key x == k)).getLast?

/-- JavaScript `s.toLowerCase()` (ASCII case folding), computed on the
character list so that it reduces in the kernel. -/
def jsToLower (s : String) : String :=
  ⟨s.data.map Char.toLower⟩

/-- JavaScript `s.trim()`: strip leading and trailing whitespace. -/
def jsTrim (s : String) : String :=
  ⟨((s.data.dropWhile Char.isWhitespace).reverse.dropWhile Char.isWhitespace).reverse⟩

/-! ## Contact data model (`src/services/contact-sync.js`) -/

/-- Exchange-side contact fields used by `ContactSync`
(`convertExchangeContact` reads exactly these). `""` = absent. -/
structure ExContactProps where
  displayName : String := ""
  firstName : String := ""
  lastName : String := ""
  email : String := ""
  phone : String := ""
  company : String := ""
  mobilePhone : String := ""
  homePhone : String := ""
  workAddress : String := ""
  homeAddress : String := ""
  notes : String := ""
  deriving DecidableEq, Repr

/-- Thunderbird-side contact `properties` object. `""` = absent. -/
structure TbContactProps where
  DisplayName : String := ""
  FirstName : String := ""
  LastName : String := ""
  PrimaryEmail : String := ""
  WorkPhone : String := ""
  Company : String := ""
  CellularNumber : String := ""
  HomePhone : String := ""
  WorkAddress : String := ""
  HomeAddress : String := ""
  Notes : String := ""
  deriving DecidableEq, Repr

/-- A contact stored in a Thunderbird address book (has a store id). -/
structure TbContact where
  id : Nat
  props : TbContactProps
  deriving DecidableEq, Repr

/-- A contact stored in Exchange (has a store id). -/
structure ExContact where
  id : Nat
  props : ExContactProps
  deriving DecidableEq, Repr

/-- `ContactSync.generateContactKey` (contact-sync.js:358-369): primary
email lowercased when present, else the space-joined
firstName/lastName/displayName composite, trimmed and lowercased. -/
def generateContactKey (p : TbContactProps) : String :=
  if p.PrimaryEmail ≠ "" then
    jsToLower p.PrimaryEmail
  else
    jsToLower (jsTrim (p.FirstName ++ " " ++ p.LastName ++ " " ++ p.DisplayName))

/-- `ContactSync.generateContactKeyFromExchange` (contact-sync.js:374-385). -/
def generateContactKeyFromExchange (p : ExContactProps) : String :=
  if p.email ≠ "" then
    jsToLower p.email
  else
    jsToLower (jsTrim (p.firstName ++ " " ++ p.lastName ++ " " ++ p.displayName))

/-- `ContactSync.convertExchangeContact` (contact-sync.js:390-442).
Each source `if (x.f) props.F = x.f` collapses to a field copy under the
`"" = absent` convention. -/
def convertExchangeContact (p : ExContactProps) : TbContactProps :=
  { DisplayName := p.displayName
    FirstName := p.firstName
    LastName := p.lastName
    PrimaryEmail := p.email
    WorkPhone := p.phone
    Company := p.company
    CellularNumber := p.mobilePhone
    HomePhone := p.homePhone
    WorkAddress := p.workAddress
    HomeAddress := p.homeAddress
    Notes := p.notes }

/-- `ContactSync.convertThunderbirdContact` (contact-sync.js:447-499). -/
def convertThunderbirdContact (p : TbContactProps) : ExContactProps :=
  { displayName := p.DisplayName
    firstName := p.FirstName
    lastName := p.LastName
    email := p.PrimaryEmail
    phone := p.WorkPhone
    company := p.Company
    mobilePhone := p.CellularNumber
    homePhone := p.HomePhone
    workAddress := p.WorkAddress
    homeAddress := p.HomeAddress
    notes := p.Notes }

/-- The fixed ordered field list of `ContactSync.needsUpdate` /
`thunderbirdContactNeedsUpdate` (contact-sync.js:508-515, 536-543), as
pairs of projections (tb side, exchange side). -/
def contactFieldsToCompare : List ((TbContactProps → String) × (ExContactProps → String)) :=
  [ (TbContactProps.DisplayName, ExContactProps.displayName)
  , (TbContactProps.FirstName, ExContactProps.firstName)
  , (TbContactProps.LastName, ExContactProps.lastName)
  , (TbContactProps.PrimaryEmail, ExContactProps.email)
  , (TbContactProps.WorkPhone, ExContactProps.phone)
  , (TbContactProps.Company, ExContactProps.company) ]

/-- `ContactSync.needsUpdate` (contact-sync.js:504-527): true at the first
field pair that differs (missing values read as `""`). -/
def needsUpdate (tb : TbContactProps) (ex : ExContactProps) : Bool :=
  contactFieldsToCompare.any (fun f => f.1 tb != f.2 ex)

/-- `ContactSync.thunderbirdContactNeedsUpdate` (contact-sync.js:532-557):
same field list, but a difference counts only when the Thunderbird value
is non-blank after trimming. -/
def thunderbirdContactNeedsUpdate (tb : TbContactProps) (ex : ExContactProps) : Bool :=
  contactFieldsToCompare.any (fun f => f.1 tb != f.2 ex && jsTrim (f.1 tb) != "")

/-! ## Sync statistics and the injected client interface -/

/-- The per-pass result counters built by the sync passes
(contact-sync.js:175-180, 266-271). -/
structure SyncResults where
  totalSynced : Nat := 0
  created : Nat := 0
  updated : Nat := 0
  errors : Nat := 0
  deriving DecidableEq, Repr

/-- Summation done by `performBidirectionalSync` (contact-sync.js:148-159). -/
def SyncResults.add (r s : SyncResults) : SyncResults :=
  { totalSynced := r.totalSynced + s.totalSynced
    created := r.created + s.created
    updated := r.updated + s.updated
    errors := r.errors + s.errors }

/-- A page result of `exchangeClient.getContacts`: the source checks
`!r.success || !r.contacts`, so the contacts list is optional. -/
structure ContactsPage where
  success : Bool
  contacts : Option (List ExContact)

/-- The external operations `ContactSync` performs: the injected
`this.exchangeClient` plus the `browser.contacts`/`browser.addressBooks`
store, threaded through a state `σ`. Fallible calls return
`Except String` (a thrown error carries a message). -/
structure ContactApis (σ : Type) where
  /-- `browser.contacts.list(addressBook.id)` -/
  tbList : σ → List TbContact
  /-- `exchangeClient.getContacts(account, {maxItems, offset})` -/
  getContacts : σ → Nat → Nat → Except String ContactsPage
  /-- `browser.contacts.create(addressBook.id, c)` -/
  tbCreate : σ → TbContactProps → Except String σ
  /-- `browser.contacts.update(id, c)` -/
  tbUpdate : σ → Nat → TbContactProps → Except String σ
  /-- `exchangeClient.createContact(account, c)` -/
  exCreate : σ → ExContactProps → Except String σ
  /-- `exchangeClient.updateContact(account, id, u)` -/
  exUpdate : σ → Nat → ExContactProps → Except String σ

/-! ## The two contact reconciliation passes -/

/-- Body of the per-item loop of `syncExchangeToThunderbird`
(contact-sync.js:208-233): look the Exchange contact up in the snapshot
map of Thunderbird contacts; update when `needsUpdate`, else create;
a failure is caught at the item, counted into `errors`. -/
def syncExchangeItemStep (api : ContactApis σ) (snap : String → Option TbContact)
    (acc : σ × SyncResults) (e : ExContact) : σ × SyncResults :=
  let (st, res) := acc
  match snap (generateContactKeyFromExchange e.props) with
  | some tb =>
    if needsUpdate tb.props e.props then
      match api.tbUpdate st tb.id (convertExchangeContact e.props) with
      | .ok st' => (st', { res with updated := res.updated + 1,
                                    totalSynced := res.totalSynced + 1 })
      | .error _ => (st, { res with errors := res.errors + 1 })
    else
      (st, res)
  | none =>
    match api.tbCreate st (convertExchangeContact e.props) with
    | .ok st' => (st', { res with created := res.created + 1,
                                  totalSynced := res.totalSynced + 1 })
    | .error _ => (st, { res with errors := res.errors + 1 })

/-- The per-item loop of `syncExchangeToThunderbird` over one batch of
Exchange contacts (contact-sync.js:208-233). -/
def syncExchangeItems (api : ContactApis σ) (snap : String → Option TbContact)
    (acc : σ × SyncResults) (items : List ExContact) : σ × SyncResults :=
  items.foldl (syncExchangeItemStep api snap) acc

/-- Effects of one paged iteration, recorded for the pagination claims:
the offsets handed to `getContacts` and the number of `sleep(100)` calls. -/
structure PageTrace where
  offsets : List Nat := []
  sleeps : Nat := 0
  deriving DecidableEq, Repr

/-- The paged `while (hasMore)` loop of `syncExchangeToThunderbird`
(contact-sync.js:196-249): fetch a batch at `offset`, stop on
`success=false`/missing list, process the batch, continue (after a
`sleep(100)`) while the batch was exactly `batchSize` long; a thrown
fetch error is caught, counted into `errors`, and breaks the loop.
`fuel` bounds the unrolling of the source's `while`. -/
def syncExchangeToThunderbirdLoop (api : ContactApis σ) (snap : String → Option TbContact)
    (batchSize : Nat) :
    Nat → Nat → σ → SyncResults → PageTrace → σ × SyncResults × PageTrace
  | 0, _, st, res, tr => (st, res, tr)
  | fuel + 1, offset, st, res, tr =>
    let tr := { tr with offsets := tr.offsets ++ [offset] }
    match api.getContacts st batchSize offset with
    | .error _ => (st, { res with errors := res.errors + 1 }, tr)
    | .ok page =>
      if !page.success then (st, res, tr)
      else
        match page.contacts with
        | none => (st, res, tr)
        | some contacts =>
          let (st, res) := syncExchangeItems api snap (st, res) contacts
          if contacts.length == batchSize then
            syncExchangeToThunderbirdLoop api snap batchSize fuel (offset + batchSize)
              st res { tr with sleeps := tr.sleeps + 1 }
          else
            (st, res, tr)

/-- `ContactSync.batchSize` (contact-sync.js:11). -/
def contactBatchSize : Nat := 100

/-- `ContactSync.syncExchangeToThunderbird` (contact-sync.js:172-258):
snapshot the Thunderbird contacts into a key map, then run the paged
loop from offset 0. -/
def syncExchangeToThunderbird (api : ContactApis σ) (fuel : Nat) (st : σ) :
    σ × SyncResults × PageTrace :=
  let snap := jsMapGet (fun t => generateContactKey t.props) (api.tbList st)
  syncExchangeToThunderbirdLoop api snap contactBatchSize fuel 0 st {} {}

/-- The paged accumulation loop of `getAllExchangeContacts`
(contact-sync.js:331-350): same continuation condition, but no sleep at
all, and a thrown fetch error just breaks (no `errors` counter here). -/
def getAllExchangeContactsLoop (api : ContactApis σ) (batchSize : Nat) :
    Nat → Nat → σ → List ExContact → PageTrace → List ExContact × PageTrace
  | 0, _, _, acc, tr => (acc, tr)
  | fuel + 1, offset, st, acc, tr =>
    let tr := { tr with offsets := tr.offsets ++ [offset] }
    match api.getContacts st batchSize offset with
    | .error _ => (acc, tr)
    | .ok page =>
      if !page.success then (acc, tr)
      else
        match page.contacts with
        | none => (acc, tr)
        | some contacts =>
          let acc := acc ++ contacts
          if contacts.length == batchSize then
            getAllExchangeContactsLoop api batchSize fuel (offset + batchSize) st acc tr
          else
            (acc, tr)

/-- `ContactSync.getAllExchangeContacts` (contact-sync.js:326-353). -/
def getAllExchangeContacts (api : ContactApis σ) (fuel : Nat) (st : σ) :
    List ExContact × PageTrace :=
  getAllExchangeContactsLoop api contactBatchSize fuel 0 st [] {}

/-- Body of the per-item loop of `syncThunderbirdToExchange`
(contact-sync.js:287-312). -/
def syncThunderbirdItemStep (api : ContactApis σ) (snap : String → Option ExContact)
    (acc : σ × SyncResults) (t : TbContact) : σ × SyncResults :=
  let (st, res) := acc
  match snap (generateContactKey t.props) with
  | some ex =>
    if thunderbirdContactNeedsUpdate t.props ex.props then
      match api.exUpdate st ex.id (convertThunderbirdContact t.props) with
      | .ok st' => (st', { res with updated := res.updated + 1,
                                    totalSynced := res.totalSynced + 1 })
      | .error _ => (st, { res with errors := res.errors + 1 })
    else
      (st, res)
  | none =>
    match api.exCreate st (convertThunderbirdContact t.props) with
    | .ok st' => (st', { res with created := res.created + 1,
                                  totalSynced := res.totalSynced + 1 })
    | .error _ => (st, { res with errors := res.errors + 1 })

/-- The per-item loop of `syncThunderbirdToExchange` (contact-sync.js:287-312). -/
def syncThunderbirdItems (api : ContactApis σ) (snap : String → Option ExContact)
    (acc : σ × SyncResults) (items : List TbContact) : σ × SyncResults :=
  items.foldl (syncThunderbirdItemStep api snap) acc

/-- `ContactSync.syncThunderbirdToExchange` (contact-sync.js:263-321):
list the Thunderbird contacts, fetch all Exchange contacts (paginated),
snapshot them into a key map, then run the item loop. -/
def syncThunderbirdToExchange (api : ContactApis σ) (fuel : Nat) (st : σ) :
    σ × SyncResults :=
  let tbContacts := api.tbList st
  let exContacts := (getAllExchangeContacts api fuel st).1
  let snap := jsMapGet (fun e => generateContactKeyFromExchange e.props) exContacts
  syncThunderbirdItems api snap (st, {}) tbContacts

/-- `ContactSync.performBidirectionalSync` (contact-sync.js:136-167):
Exchange→Thunderbird pass, then Thunderbird→Exchange pass, results summed. -/
def performBidirectionalSync (api : ContactApis σ) (fuel : Nat) (st : σ) :
    σ × SyncResults :=
  let (st, r1, _) := syncExchangeToThunderbird api fuel st
  let (st, r2) := syncThunderbirdToExchange api fuel st
  (st, r1.add r2)

/-! ## The concrete stores

The Thunderbird address book and the Exchange contact folder, with
fresh-id counters. `update` replaces the addressed item's fields with the
converted object the source hands over; `create` appends with a fresh id;
`getContacts` serves `offset`/`maxItems` slices. -/

structure ContactWorld where
  tb : List TbContact
  ex : List ExContact
  tbNextId : Nat
  exNextId : Nat
  deriving DecidableEq, Repr

/-- The always-successful store-backed client. -/
def pureContactApis : ContactApis ContactWorld where
  tbList w := w.tb
  getContacts w maxItems offset :=
    .ok { success := true, contacts := some ((w.ex.drop offset).take maxItems) }
  tbCreate w p :=
    .ok { w with tb := w.tb ++ [⟨w.tbNextId, p⟩], tbNextId := w.tbNextId + 1 }
  tbUpdate w i p :=
    .ok { w with tb := w.tb.map (fun t => if t.id == i then { t with props := p } else t) }
  exCreate w p :=
    .ok { w with ex := w.ex ++ [⟨w.exNextId, p⟩], exNextId := w.exNextId + 1 }
  exUpdate w i p :=
    .ok { w with ex := w.ex.map (fun e => if e.id == i then { e with props := p } else e) }

/-- One full `sync` reconciliation over the stores (the
`performBidirectionalSync` call inside `ContactSync.sync`,
contact-sync.js:62). The fuel covers every page of either store. -/
def contactSyncRun (w : ContactWorld) : ContactWorld × SyncResults :=
  performBidirectionalSync pureContactApis (w.ex.length + w.tb.length + 1) w

/-- Two successive `sync` runs with no intervening store change; the
value is the second run's state and results. -/
def contactSyncTwice (w : ContactWorld) : ContactWorld × SyncResults :=
  contactSyncRun (contactSyncRun w).1

/-! ## Pure projection of a reconciliation pass

Both item loops above, run against the pure store-backed client, reduce
to one list-level recursion: iterate the source items, decide against the
fixed snapshot map, and either update the addressed store element,
create a fresh one, or skip.  `passItems` is that common projection
(`A` = iterated side, `B` = written side); bridge lemmas below prove each
concrete loop equal to an instance of it. -/

def passItems (keyA : A → String) (bId : B → Nat) (dec : B → A → Bool)
    (upd : A → B → B) (mkNew : Nat → A → B) (snap : String → Option B) :
    List B × Nat × SyncResults → List A → List B × Nat × SyncResults
  | acc, [] => acc
  | (S, nid, res), a :: rest =>
    match snap (keyA a) with
    | some b =>
      if dec b a then
        passItems keyA bId dec upd mkNew snap
          (S.map (fun x => if bId x == bId b then upd a x else x), nid,
           { res with updated := res.updated + 1, totalSynced := res.totalSynced + 1 }) rest
      else
        passItems keyA bId dec upd mkNew snap (S, nid, res) rest
    | none =>
      passItems keyA bId dec upd mkNew snap
        (S ++ [mkNew nid a], nid + 1,
         { res with created := res.created + 1, totalSynced := res.totalSynced + 1 }) rest

/-- The effect of processing one source item `a` on a store element `b`,
with decisions taken against the snapshot of the initial store `S₀`. -/
def stepUpd (keyA : A → String) (keyB : B → String) (bId : B → Nat)
    (dec : B → A → Bool) (upd : A → B → B) (S₀ : List B) (a : A) (b : B) : B :=
  match jsMapGet keyB S₀ (keyA a) with
  | some b' => if dec b' a && (bId b == bId b') then upd a b else b
  | none => b

/-- Accumulated effect of a whole item list on one store element. -/
def applyUpds (keyA : A → String) (keyB : B → String) (bId : B → Nat)
    (dec : B → A → Bool) (upd : A → B → B) (S₀ : List B) (items : List A) (b : B) : B :=
  items.foldl (fun b a => stepUpd keyA keyB bId dec upd S₀ a b) b

/-- The store elements created by a pass: one per source item that has no
snapshot match, with consecutive fresh ids. -/
def passCreations (keyA : A → String) (keyB : B → String) (mkNew : Nat → A → B)
    (S₀ : List B) : List A → Nat → List B
  | [], _ => []
  | a :: rest, nid =>
    match jsMapGet keyB S₀ (keyA a) with
    | some _ => passCreations keyA keyB mkNew S₀ rest nid
    | none => mkNew nid a :: passCreations keyA keyB mkNew S₀ rest (nid + 1)

/-! ### The two directions as instances of the pure projection -/

/-- Key of an Exchange store contact (`generateContactKeyFromExchange`). -/
def exKey (e : ExContact) : String := generateContactKeyFromExchange e.props

/-- Key of a Thunderbird store contact (`generateContactKey`). -/
def tbKey (t : TbContact) : String := generateContactKey t.props

/-- Decision of the Exchange→Thunderbird pass. -/
def exToTbDec (t : TbContact) (e : ExContact) : Bool := needsUpdate t.props e.props

/-- `browser.contacts.update` payload of the Exchange→Thunderbird pass. -/
def exToTbUpd (e : ExContact) (t : TbContact) : TbContact :=
  { t with props := convertExchangeContact e.props }

/-- `browser.contacts.create` payload of the Exchange→Thunderbird pass. -/
def exToTbNew (n : Nat) (e : ExContact) : TbContact :=
  ⟨n, convertExchangeContact e.props⟩

/-- Decision of the Thunderbird→Exchange pass. -/
def tbToExDec (x : ExContact) (t : TbContact) : Bool :=
  thunderbirdContactNeedsUpdate t.props x.props

/-- `exchangeClient.updateContact` payload of the Thunderbird→Exchange pass. -/
def tbToExUpd (t : TbContact) (x : ExContact) : ExContact :=
  { x with props := convertThunderbirdContact t.props }

/-- `exchangeClient.createContact` payload of the Thunderbird→Exchange pass. -/
def tbToExNew (n : Nat) (t : TbContact) : ExContact :=
  ⟨n, convertThunderbirdContact t.props⟩

/-- Reassemble a world from a Thunderbird-side pass result. -/
def withTb (w : ContactWorld) (p : List TbContact × Nat × SyncResults) :
    ContactWorld × SyncResults :=
  ({ tb := p.1, ex := w.ex, tbNextId := p.2.1, exNextId := w.exNextId }, p.2.2)

/-- Reassemble a world from an Exchange-side pass result. -/
def withEx (w : ContactWorld) (p : List ExContact × Nat × SyncResults) :
    ContactWorld × SyncResults :=
  ({ tb := w.tb, ex := p.1, tbNextId := w.tbNextId, exNextId := p.2.1 }, p.2.2)

/-- Stores with pairwise-distinct deduplication keys and well-formed ids.
The key distinctness is exactly what the source's `Map`-based matching
needs to be injective; §9 of the design notes flags composite-key
collisions as a known weakness. -/
def GoodWorld (w : ContactWorld) : Prop :=
  (w.tb.map tbKey).Nodup ∧ (w.tb.map TbContact.id).Nodup ∧
  (w.ex.map exKey).Nodup ∧ (w.ex.map ExContact.id).Nodup ∧
  (∀ t ∈ w.tb, t.id < w.tbNextId) ∧ (∀ e ∈ w.ex, e.id < w.exNextId)

/-- Accumulated Exchange→Thunderbird update of one local contact. -/
def g1 (w : ContactWorld) (t : TbContact) : TbContact :=
  applyUpds exKey tbKey TbContact.id exToTbDec exToTbUpd w.tb w.ex t

/-- Local contacts created by the Exchange→Thunderbird pass. -/
def creations1 (w : ContactWorld) : List TbContact :=
  passCreations exKey tbKey exToTbNew w.tb w.ex w.tbNextId

/-- The local store after the Exchange→Thunderbird pass. -/
def tbAfter (w : ContactWorld) : List TbContact :=
  w.tb.map (g1 w) ++ creations1 w

/-- Exchange contacts created by the Thunderbird→Exchange pass. -/
def creations2 (w : ContactWorld) : List ExContact :=
  passCreations tbKey exKey tbToExNew w.ex (tbAfter w) w.exNextId

/-- The Exchange store after the whole run (no pass-2 update fires, as
proven below). -/
def exAfter (w : ContactWorld) : List ExContact :=
  w.ex ++ creations2 w

/-- The world after one full reconciliation run. -/
def wAfter (w : ContactWorld) : ContactWorld :=
  { tb := tbAfter w, ex := exAfter w,
    tbNextId := w.tbNextId + (creations1 w).length,
    exNextId := w.exNextId + (creations2 w).length }

/-! ## The retry wrapper (`ExchangeClient.executeWithRetry`,
exchange-client part of the repository, see `executeWithRetry` /
`isRetryableError`) -/

/-- An error thrown by a remote call: its message and, when it came from
an HTTP response, its status. -/
structure EwsError where
  message : String := ""
  status : Option Int := none
  deriving DecidableEq, Repr

/-- `ExchangeClient.maxRetries`. -/
def maxRetries : Nat := 3

/-- `ExchangeClient.baseRetryDelay` (milliseconds). -/
def baseRetryDelay : Nat := 1000

/-- `ExchangeClient.isRetryableError`: network-transport errors,
HTTP 5xx, HTTP 429, and the fixed EWS throttling/timeout codes. -/
def isRetryableError (e : EwsError) : Bool :=
  jsIncludes e.message "NetworkError" ||
  jsIncludes e.message "ECONNRESET" ||
  jsIncludes e.message "ETIMEDOUT" ||
  (match e.status with
   | some s => decide (500 ≤ s) && decide (s < 600)
   | none => false) ||
  (match e.status with
   | some s => s == 429
   | none => false) ||
  jsIncludes e.message "ErrorServerBusy" ||
  jsIncludes e.message "ErrorTimeoutExpired" ||
  jsIncludes e.message "ErrorConnectionFailed"

/-- `ExchangeClient.executeWithRetry`: run the operation; on a
classified-retryable error below the retry cap, sleep
`baseRetryDelay * 2^retryCount` and recurse with `retryCount + 1`;
otherwise rethrow the error unchanged.  The operation is indexed by the
attempt number (the source closure may fail differently per call); the
second component records the delays slept between attempts. -/
def executeWithRetry (op : Nat → Except EwsError α) (retryCount : Nat) :
    Except EwsError α × List Nat :=
  match op retryCount with
  | .ok v => (.ok v, [])
  | .error e =>
    if h : isRetryableError e = true ∧ retryCount < maxRetries then
      let delay := baseRetryDelay * 2 ^ retryCount
      let rest := executeWithRetry op (retryCount + 1)
      (rest.1, delay :: rest.2)
    else
      (.error e, [])
termination_by maxRetries - retryCount
decreasing_by
  have := h.2
  omega

/-! ## Message deduplication keys (`EmailSync`, email-sync.js) -/

/-- The fields of a Thunderbird message header read by
`generateMessageKey`: provider identifier (`""` = absent), subject, date
(epoch ms). -/
structure TbMessage where
  headerMessageId : String := ""
  subject : String := ""
  date : Option Int := none
  deriving DecidableEq, Repr

/-- The fields of an Exchange message header read by
`generateMessageKeyFromExchange`. -/
structure ExMessageHeader where
  id : String := ""
  subject : String := ""
  dateTimeReceived : Option Int := none
  deriving DecidableEq, Repr

/-- `EmailSync.generateMessageKey` (email-sync.js:318-327): the
`headerMessageId` verbatim when present, else `subject-timestamp` with
defaults `no-subject` / `0`. -/
def generateMessageKey (m : TbMessage) : String :=
  if m.headerMessageId ≠ "" then
    m.headerMessageId
  else
    let subject := if m.subject ≠ "" then m.subject else "no-subject"
    let date : Int := m.date.getD 0
    subject ++ "-" ++ toString date

/-- `EmailSync.generateMessageKeyFromExchange` (email-sync.js:332-337):
always `subject-receivedTimestamp`. -/
def generateMessageKeyFromExchange (m : ExMessageHeader) : String :=
  let subject := if m.subject ≠ "" then m.subject else "no-subject"
  let date : Int := m.dateTimeReceived.getD 0
  subject ++ "-" ++ toString date

/-! ## Calendar items (`CalendarSync`, in the email-sync.js source file) -/

/-- Thunderbird-side calendar item fields read by the calendar diff and
converters. `""` = absent string, `none` = absent instant. -/
structure TbCalendarItem where
  subject : String := ""
  title : String := ""
  body : String := ""
  description : String := ""
  startDate : Option Int := none
  endDate : Option Int := none
  location : String := ""
  status : String := ""
  deriving DecidableEq, Repr

/-- An Exchange mailbox address. `""` = absent part. -/
structure EmailAddressRec where
  name : String := ""
  email : String := ""
  deriving DecidableEq, Repr

/-- Exchange-side calendar item fields (`start`/`end` as epoch ms;
`endTime` embeds the source field `end`). -/
structure ExCalendarItem where
  id : String := ""
  subject : String := ""
  body : String := ""
  start : Option Int := none
  endTime : Option Int := none
  location : String := ""
  freeBusyStatus : String := ""
  organizer : Option EmailAddressRec := none
  attendees : Option (List EmailAddressRec) := none
  deriving DecidableEq, Repr

/-- The fixed ordered field list of `CalendarSync.needsUpdate`
(email-sync.js:1138-1142). -/
def calendarFieldsToCompare :
    List ((TbCalendarItem → String) × (ExCalendarItem → String)) :=
  [ (TbCalendarItem.subject, ExCalendarItem.subject)
  , (TbCalendarItem.body, ExCalendarItem.body)
  , (TbCalendarItem.location, ExCalendarItem.location) ]

/-- `CalendarSync.needsUpdate` (email-sync.js:1136-1165): the three text
fields, then the start/end instants as epoch milliseconds with an absent
instant read as `0` (`x ? new Date(x).getTime() : 0`). -/
def calendarNeedsUpdate (tb : TbCalendarItem) (ex : ExCalendarItem) : Bool :=
  calendarFieldsToCompare.any (fun f => f.1 tb != f.2 ex) ||
  (tb.startDate.getD 0 != ex.start.getD 0) ||
  (tb.endDate.getD 0 != ex.endTime.getD 0)

/-- `CalendarSync.thunderbirdItemNeedsUpdate` (email-sync.js:1170-1174):
delegates to the same symmetric comparison. -/
def calendarThunderbirdItemNeedsUpdate (tb : TbCalendarItem) (ex : ExCalendarItem) : Bool :=
  calendarNeedsUpdate tb ex

/-- `CalendarSync.generateCalendarItemKey` (email-sync.js:1007-1013):
`subject || title || 'no-subject'` plus the start instant. -/
def generateCalendarItemKey (item : TbCalendarItem) : String :=
  (if item.subject ≠ "" then item.subject
   else if item.title ≠ "" then item.title
   else "no-subject") ++ "-" ++ toString (item.startDate.getD 0)

/-- `CalendarSync.generateCalendarItemKeyFromExchange`
(email-sync.js:1018-1024). -/
def generateCalendarItemKeyFromExchange (item : ExCalendarItem) : String :=
  (if item.subject ≠ "" then item.subject else "no-subject")
    ++ "-" ++ toString (item.start.getD 0)

/-- `CalendarSync.convertFreeBusyStatus` (email-sync.js:1083-1093):
`statusMap[x] || 'busy'`. -/
def convertFreeBusyStatus (s : String) : String :=
  if s = "Free" then "available"
  else if s = "Tentative" then "tentative"
  else if s = "Busy" then "busy"
  else if s = "OOF" then "out-of-office"
  else if s = "WorkingElsewhere" then "working-elsewhere"
  else "busy"

/-- `CalendarSync.convertStatusToFreeBusy` (email-sync.js:1098-1108):
`statusMap[x] || 'Busy'`. -/
def convertStatusToFreeBusy (s : String) : String :=
  if s = "available" then "Free"
  else if s = "tentative" then "Tentative"
  else if s = "busy" then "Busy"
  else if s = "out-of-office" then "OOF"
  else if s = "working-elsewhere" then "WorkingElsewhere"
  else "Busy"

/-! ## The three `sync(account)` entry points and the single-flight guard

Each sync service keeps `syncState` / `lastSyncTimestamp` maps keyed by
account id and guards `sync` with `if (state && state.inProgress)`.
`Date.now()` / `new Date()` are modeled by the ambient instant `now`
(durations therefore compute to 0; no claim concerns them). -/

/-- The account object handed to `sync`. -/
structure Account where
  id : String := ""
  email : String := ""
  displayName : String := ""
  thunderbirdAccountId : Option Nat := none
  deriving DecidableEq, Repr

/-- Per-account sync state (contact-sync.js:21-31 and the analogous
constructors of the other services), generic over the service's
statistics record. -/
structure SyncState (stats : Type) where
  inProgress : Bool := false
  lastError : Option String := none
  statistics : stats
  deriving DecidableEq, Repr

/-- The service's own mutable maps (`this.syncState`,
`this.lastSyncTimestamp`). -/
structure ServiceState (stats : Type) where
  syncState : List (String × SyncState stats) := []
  lastSyncTimestamp : List (String × Int) := []
  deriving DecidableEq, Repr

/-- `Map.get` over the service maps (last `set` wins). -/
def mapLookup (m : List (String × β)) (k : String) : Option β :=
  (jsMapGet (fun p => p.1) m k).map (fun p => p.2)

/-- `Map.set` over the service maps. -/
def mapSet (m : List (String × β)) (k : String) (v : β) : List (String × β) :=
  m ++ [(k, v)]

/-- `updateSyncState(id, {inProgress: true, lastError: null})` at sync
start; a missing current state starts from the given default statistics. -/
def syncStateStart (svc : ServiceState stats) (id : String) (dflt : stats) :
    ServiceState stats :=
  let cur := match mapLookup svc.syncState id with
    | some s => s
    | none => { inProgress := false, lastError := none, statistics := dflt }
  let newState := { cur with inProgress := true, lastError := none }
  { svc with syncState := mapSet svc.syncState id newState }

/-- `updateSyncState(id, {inProgress: false, lastError: msg})` in the
`catch` of `sync`. -/
def syncStateFail (svc : ServiceState stats) (id : String) (msg : String) (dflt : stats) :
    ServiceState stats :=
  let cur := match mapLookup svc.syncState id with
    | some s => s
    | none => { inProgress := false, lastError := none, statistics := dflt }
  let newState := { cur with inProgress := false, lastError := some msg }
  { svc with syncState := mapSet svc.syncState id newState }

/-- `updateSyncState(id, {inProgress: false, statistics: …})` followed by
`lastSyncTimestamp.set(id, now)` on success. -/
def syncStateFinish (svc : ServiceState stats) (id : String) (newStats : stats) (now : Int) :
    ServiceState stats :=
  let cur := match mapLookup svc.syncState id with
    | some s => s
    | none => { inProgress := false, lastError := none, statistics := newStats }
  let newState := { cur with inProgress := false, statistics := newStats }
  { syncState := mapSet svc.syncState id newState
    lastSyncTimestamp := mapSet svc.lastSyncTimestamp id now }

/-- The guard of every service's `sync`: `state && state.inProgress`. -/
def syncInProgress (svc : ServiceState stats) (id : String) : Bool :=
  match mapLookup svc.syncState id with
  | some s => s.inProgress
  | none => false

/-! ### ContactSync.sync (contact-sync.js:39-100) -/

/-- Statistics record of `ContactSync` (contact-sync.js:24-30). -/
structure ContactStatistics where
  totalSynced : Nat := 0
  created : Nat := 0
  updated : Nat := 0
  errors : Nat := 0
  lastSyncDuration : Int := 0
  deriving DecidableEq, Repr

/-- The value `ContactSync.sync` resolves with. -/
structure ContactSyncValue where
  success : Bool
  error : Option String := none
  totalSynced : Nat := 0
  created : Nat := 0
  updated : Nat := 0
  errors : Nat := 0
  duration : Int := 0
  deriving DecidableEq, Repr

/-- A Thunderbird address book. -/
structure AddressBook where
  id : Nat := 0
  name : String := ""
  deriving DecidableEq, Repr

/-- `browser.addressBooks` operations. -/
structure AddressBookApis (σ : Type) where
  list : σ → List AddressBook
  create : σ → String → Except String (σ × AddressBook)

/-- `ContactSync.getOrCreateAddressBook` (contact-sync.js:105-131). -/
def getOrCreateAddressBook (abApi : AddressBookApis σ) (account : Account) (st : σ) :
    Except String (σ × AddressBook) :=
  let addressBookName := "Exchange - " ++ account.displayName
  match (abApi.list st).find? (fun ab => ab.name == addressBookName) with
  | some ab => .ok (st, ab)
  | none => abApi.create st addressBookName

/-- `ContactSync.sync` (contact-sync.js:39-100): reject when a sync for
the account is already in progress; else mark running, resolve the
address book, run the bidirectional reconciliation, store statistics and
the timestamp; an engine-level error marks the state failed and
re-raises. -/
def contactSyncEntry (api : ContactApis σ) (abApi : AddressBookApis σ)
    (svc : ServiceState ContactStatistics) (account : Account) (now : Int) (fuel : Nat)
    (st : σ) :
    Except String ContactSyncValue × ServiceState ContactStatistics × σ :=
  if syncInProgress svc account.id then
    (.ok { success := false, error := some "Sync already in progress" }, svc, st)
  else
    let svc1 := syncStateStart svc account.id {}
    match getOrCreateAddressBook abApi account st with
    | .error e => (.error e, syncStateFail svc1 account.id e {}, st)
    | .ok (st2, _addressBook) =>
      let q := performBidirectionalSync api fuel st2
      let results := q.2
      let syncDuration := now - now
      let svc2 := syncStateFinish svc1 account.id
        { totalSynced := results.totalSynced, created := results.created,
          updated := results.updated, errors := results.errors,
          lastSyncDuration := syncDuration } now
      (.ok { success := true, totalSynced := results.totalSynced,
             created := results.created, updated := results.updated,
             errors := results.errors, duration := syncDuration }, svc2, q.1)

/-! ### EmailSync.sync (email-sync.js:37-96) and its folder machinery -/

/-- Statistics record of `EmailSync` (email-sync.js:24-28). -/
structure EmailStatistics where
  totalSynced : Nat := 0
  errors : Nat := 0
  lastSyncDuration : Int := 0
  deriving DecidableEq, Repr

/-- The value `EmailSync.sync` resolves with. -/
structure EmailSyncValue where
  success : Bool
  error : Option String := none
  totalSynced : Nat := 0
  errors : Nat := 0
  duration : Int := 0
  deriving DecidableEq, Repr

/-- A Thunderbird mail account / folder. -/
structure TbAccount where
  id : Nat := 0
  deriving DecidableEq, Repr

structure TbFolder where
  id : Nat := 0
  name : String := ""
  deriving DecidableEq, Repr

/-- An Exchange folder as returned by `getFolderHierarchy`. -/
structure ExFolder where
  displayName : String := ""
  deriving DecidableEq, Repr

structure FolderHierarchyRes where
  success : Bool := true
  folders : List ExFolder := []
  deriving DecidableEq, Repr

/-- A page of `exchangeClient.getMessages`. -/
structure MessagesPage where
  success : Bool
  messages : Option (List ExMessageHeader)
  deriving DecidableEq, Repr

/-- A full Exchange message as consumed by `convertExchangeMessage`
(`fromAddr` embeds the source field `from`). -/
structure ExMessage where
  id : String := ""
  subject : String := ""
  body : String := ""
  dateTimeReceived : Option Int := none
  fromAddr : Option EmailAddressRec := none
  sender : Option EmailAddressRec := none
  toRecipients : Option (List EmailAddressRec) := none
  ccRecipients : Option (List EmailAddressRec) := none
  isRead : Bool := false
  size : Nat := 0
  hasAttachments : Bool := false
  bodyType : String := ""
  deriving DecidableEq, Repr

structure FullMessageRes where
  success : Bool := true
  message : ExMessage := {}
  deriving DecidableEq, Repr

/-- The external operations `EmailSync` performs. -/
structure EmailApis (σ : Type) where
  /-- `browser.accounts.list()` -/
  accountsList : σ → List TbAccount
  /-- `browser.folders.getAll(accountId)` -/
  foldersGetAll : σ → Nat → List TbFolder
  /-- `browser.folders.create(accountId, name)` -/
  foldersCreate : σ → Nat → String → Except String σ
  /-- `browser.messages.list(folderId).messages` -/
  messagesList : σ → Nat → List TbMessage
  /-- `exchangeClient.getFolderHierarchy(account)` -/
  getFolderHierarchy : σ → Except String FolderHierarchyRes
  /-- `exchangeClient.getMessages(account, folderId, {maxItems, offset})` -/
  getMessages : σ → String → Nat → Nat → Except String MessagesPage
  /-- `exchangeClient.getMessage(account, id)` -/
  getMessage : σ → String → Except String FullMessageRes

/-- `EmailSync.batchSize` (email-sync.js:11). -/
def emailBatchSize : Nat := 50

/-- `EmailSync.getThunderbirdAccount` (email-sync.js:284-295). -/
def getThunderbirdAccount (api : EmailApis σ) (account : Account) (st : σ) :
    Option TbAccount :=
  match account.thunderbirdAccountId with
  | some tid => (api.accountsList st).find? (fun a => a.id == tid)
  | none => none

/-- `EmailSync.mapFolderName` (email-sync.js:300-313). -/
def mapFolderName (folderName : String) : String :=
  if folderName = "Inbox" then "inbox"
  else if folderName = "Sent" then "sentitems"
  else if folderName = "Sent Items" then "sentitems"
  else if folderName = "Drafts" then "drafts"
  else if folderName = "Deleted Items" then "deleteditems"
  else if folderName = "Trash" then "deleteditems"
  else if folderName = "Junk" then "junkemail"
  else if folderName = "Spam" then "junkemail"
  else jsToLower folderName

/-- `EmailSync.convertEmailAddress` (email-sync.js:378-386). -/
def emailConvertEmailAddress (a : Option EmailAddressRec) : Option String :=
  match a with
  | none => none
  | some a =>
    if a.name ≠ "" && a.email ≠ "" then
      some ("\"" ++ a.name ++ "\" <" ++ a.email ++ ">")
    else if a.email ≠ "" then some a.email
    else if a.name ≠ "" then some a.name
    else none

/-- `EmailSync.convertEmailAddresses` (email-sync.js:391-397). -/
def emailConvertEmailAddresses (l : Option (List EmailAddressRec)) : List String :=
  match l with
  | none => []
  | some l => l.filterMap (fun a => emailConvertEmailAddress (some a))

/-- The Thunderbird-format message built by `convertExchangeMessage`. -/
structure TbConvertedMessage where
  subject : String
  body : String
  date : Int
  fromAddr : Option String
  sender : Option String
  toAddrs : List String
  ccAddrs : List String
  read : Bool
  flagged : Bool
  size : Nat
  hasAttachments : Bool
  messageIdHeader : String
  contentType : String
  deriving DecidableEq, Repr

/-- `EmailSync.convertExchangeMessage` (email-sync.js:342-373). -/
def convertExchangeMessage (now : Int) (m : ExMessage) : TbConvertedMessage :=
  { subject := m.subject
    body := m.body
    date := m.dateTimeReceived.getD now
    fromAddr := emailConvertEmailAddress m.fromAddr
    sender := emailConvertEmailAddress m.sender
    toAddrs := emailConvertEmailAddresses m.toRecipients
    ccAddrs := emailConvertEmailAddresses m.ccRecipients
    read := m.isRead
    flagged := false
    size := m.size
    hasAttachments := m.hasAttachments
    messageIdHeader := m.id
    contentType := if m.bodyType = "HTML" then "text/html" else "text/plain" }

/-- Per-message body of the `syncFolder` loop (email-sync.js:228-254):
skip duplicates by key, fetch the full message, convert it and hand it to
`addMessageToThunderbird` (which only logs and reports success,
email-sync.js:402-422); an item failure is caught and counted. The
accumulator is `(synced, errors)`. -/
def syncMessageStep (api : EmailApis σ) (now : Int) (st : σ) (snapHas : String → Bool)
    (acc : Nat × Nat) (m : ExMessageHeader) : Nat × Nat :=
  let (synced, errors) := acc
  if snapHas (generateMessageKeyFromExchange m) then
    (synced, errors)
  else
    match api.getMessage st m.id with
    | .error _ => (synced, errors + 1)
    | .ok fm =>
      if fm.success then
        let _tbMessage := convertExchangeMessage now fm.message
        (synced + 1, errors)
      else
        (synced, errors)

/-- The paged `while (hasMore)` loop of `syncFolder`
(email-sync.js:216-270), with the same stop conditions and trace
recording as the contact pass loop. -/
def syncFolderLoop (api : EmailApis σ) (now : Int) (st : σ) (exchangeFolderId : String)
    (snapHas : String → Bool) (batchSize : Nat) :
    Nat → Nat → Nat × Nat → PageTrace → (Nat × Nat) × PageTrace
  | 0, _, acc, tr => (acc, tr)
  | fuel + 1, offset, acc, tr =>
    let tr := { tr with offsets := tr.offsets ++ [offset] }
    match api.getMessages st exchangeFolderId batchSize offset with
    | .error _ => ((acc.1, acc.2 + 1), tr)
    | .ok page =>
      if !page.success then (acc, tr)
      else
        match page.messages with
        | none => (acc, tr)
        | some messages =>
          let acc := messages.foldl (syncMessageStep api now st snapHas) acc
          if messages.length == batchSize then
            syncFolderLoop api now st exchangeFolderId snapHas batchSize fuel
              (offset + batchSize) acc { tr with sleeps := tr.sleeps + 1 }
          else
            (acc, tr)

/-- `EmailSync.syncFolder` (email-sync.js:190-279). -/
def syncFolder (api : EmailApis σ) (now : Int) (fuel : Nat) (st : σ)
    (folder : TbFolder) : (Nat × Nat) × PageTrace :=
  let exchangeFolderId := mapFolderName folder.name
  let existingMessages := api.messagesList st folder.id
  let snapHas := fun k => (jsMapGet generateMessageKey existingMessages k).isSome
  syncFolderLoop api now st exchangeFolderId snapHas emailBatchSize fuel 0 (0, 0) {}

/-- `EmailSync` priority folders (email-sync.js:144). -/
def priorityFolders : List String := ["inbox", "sentitems", "drafts", "deleteditems"]

/-- `a.localeCompare(b)` modeled as lexicographic string comparison. -/
def localeCompare (a b : String) : Int :=
  if a < b then -1 else if a = b then 0 else 1

/-- The folder comparator of `syncAllFolders` (email-sync.js:155-165). -/
def folderCmp (a b : TbFolder) : Int :=
  let aPriority : Int := match priorityFolders.indexOf? (jsToLower a.name) with
    | some i => (i : Int)
    | none => -1
  let bPriority : Int := match priorityFolders.indexOf? (jsToLower b.name) with
    | some i => (i : Int)
    | none => -1
  if aPriority ≠ -1 && bPriority ≠ -1 then aPriority - bPriority
  else if aPriority ≠ -1 then -1
  else if bPriority ≠ -1 then 1
  else localeCompare a.name b.name

/-- Stable comparator sort (models `Array.prototype.sort`, which is
stable): insertion respecting `cmp ≤ 0`. -/
def insertCmp (cmp : α → α → Int) (x : α) : List α → List α
  | [] => [x]
  | y :: ys => if cmp x y < 0 then x :: y :: ys else y :: insertCmp cmp x ys

def sortByCmp (cmp : α → α → Int) (l : List α) : List α :=
  l.foldl (fun acc x => insertCmp cmp x acc) []

/-- `EmailSync.syncAllFolders` (email-sync.js:143-185): sort the folders
by priority, sync each, accumulate; a folder failure is caught and
counted (in this model `syncFolder` is total). -/
def syncAllFolders (api : EmailApis σ) (now : Int) (fuel : Nat) (st : σ)
    (tbAccountId : Nat) : Nat × Nat :=
  let folders := api.foldersGetAll st tbAccountId
  let sortedFolders := sortByCmp folderCmp folders
  sortedFolders.foldl (fun acc folder =>
    let r := (syncFolder api now fuel st folder).1
    (acc.1 + r.1, acc.2 + r.2)) (0, 0)

/-- `EmailSync.syncFolderStructure` (email-sync.js:101-138): fetch the
Exchange hierarchy (failure raises), then create the folders missing from
a snapshot of the existing ones; a single create failure is only warned
about. -/
def syncFolderStructure (api : EmailApis σ) (st : σ) (tbAccountId : Nat) :
    Except String σ :=
  match api.getFolderHierarchy st with
  | .error e => .error e
  | .ok h =>
    if !h.success then .error "Failed to get Exchange folder hierarchy"
    else
      let existingFolders := api.foldersGetAll st tbAccountId
      .ok (h.folders.foldl (fun st f =>
        if existingFolders.any (fun g => g.name == f.displayName) then st
        else
          match api.foldersCreate st tbAccountId f.displayName with
          | .ok st' => st'
          | .error _ => st) st)

/-- `EmailSync.sync` (email-sync.js:37-96). -/
def emailSyncEntry (api : EmailApis σ) (svc : ServiceState EmailStatistics)
    (account : Account) (now : Int) (fuel : Nat) (st : σ) :
    Except String EmailSyncValue × ServiceState EmailStatistics × σ :=
  if syncInProgress svc account.id then
    (.ok { success := false, error := some "Sync already in progress" }, svc, st)
  else
    let svc1 := syncStateStart svc account.id {}
    match getThunderbirdAccount api account st with
    | none =>
      (.error "Thunderbird account not found",
       syncStateFail svc1 account.id "Thunderbird account not found" {}, st)
    | some tbAccount =>
      match syncFolderStructure api st tbAccount.id with
      | .error e => (.error e, syncStateFail svc1 account.id e {}, st)
      | .ok st2 =>
        let results := syncAllFolders api now fuel st2 tbAccount.id
        let syncDuration := now - now
        let svc2 := syncStateFinish svc1 account.id
          { totalSynced := results.1, errors := results.2,
            lastSyncDuration := syncDuration } now
        (.ok { success := true, totalSynced := results.1, errors := results.2,
               duration := syncDuration }, svc2, st2)

/-! ### CalendarSync.sync (email-sync.js:649-715) -/

/-- Statistics record of `CalendarSync` (email-sync.js:633-640). -/
structure CalendarStatistics where
  totalSynced : Nat := 0
  created : Nat := 0
  updated : Nat := 0
  deleted : Nat := 0
  errors : Nat := 0
  lastSyncDuration : Int := 0
  deriving DecidableEq, Repr

/-- The value `CalendarSync.sync` resolves with. -/
structure CalendarSyncValue where
  success : Bool
  error : Option String := none
  totalSynced : Nat := 0
  created : Nat := 0
  updated : Nat := 0
  deleted : Nat := 0
  errors : Nat := 0
  duration : Int := 0
  deriving DecidableEq, Repr

/-- Counter record of the calendar passes (email-sync.js:763-769). -/
structure CalendarResults where
  totalSynced : Nat := 0
  created : Nat := 0
  updated : Nat := 0
  deleted : Nat := 0
  errors : Nat := 0
  deriving DecidableEq, Repr

def CalendarResults.add (r s : CalendarResults) : CalendarResults :=
  { totalSynced := r.totalSynced + s.totalSynced, created := r.created + s.created,
    updated := r.updated + s.updated, deleted := r.deleted + s.deleted,
    errors := r.errors + s.errors }

/-- Result of `exchangeClient.getCalendarItems`. -/
structure CalendarItemsRes where
  success : Bool
  items : Option (List ExCalendarItem)
  deriving DecidableEq, Repr

/-- The external operations `CalendarSync` performs. -/
structure CalendarApis (σ : Type) where
  /-- `exchangeClient.getCalendarItems(account, startDate, endDate)` -/
  getCalendarItems : σ → Int → Int → Except String CalendarItemsRes

/-- The sync window (email-sync.js:748-757): 30 days back, 60 days
forward; calendar-day arithmetic modeled as whole days of milliseconds. -/
structure CalendarWindow where
  startDate : Int
  endDate : Int
  deriving DecidableEq, Repr

def getSyncWindow (now : Int) : CalendarWindow :=
  { startDate := now - 30 * 86400000, endDate := now + 60 * 86400000 }

/-- `CalendarSync.convertEmailAddress` (email-sync.js:1113-1120). -/
def calendarConvertEmailAddress (a : Option EmailAddressRec) : Option EmailAddressRec :=
  match a with
  | none => none
  | some a => some { name := a.name, email := a.email }

/-- `CalendarSync.convertEmailAddresses` (email-sync.js:1125-1131). -/
def calendarConvertEmailAddresses (l : Option (List EmailAddressRec)) :
    List EmailAddressRec :=
  match l with
  | none => []
  | some l => l.filterMap (fun a => calendarConvertEmailAddress (some a))

/-- The Thunderbird-format event built by `convertExchangeCalendarItem`
(email-sync.js:1029-1057). -/
structure TbNewCalendarItem where
  subject : String
  title : String
  body : String
  description : String
  startDate : Int
  endDate : Int
  location : String
  status : String
  priority : String
  organizer : Option EmailAddressRec
  attendees : List EmailAddressRec
  isRecurring : Bool
  exchangeId : String
  lastModified : Int
  created : Int
  deriving DecidableEq, Repr

/-- `CalendarSync.convertExchangeCalendarItem` (email-sync.js:1029-1057);
`new Date()` defaults are the ambient `now`. -/
def convertExchangeCalendarItem (now : Int) (ex : ExCalendarItem) : TbNewCalendarItem :=
  { subject := ex.subject
    title := ex.subject
    body := ex.body
    description := ex.body
    startDate := ex.start.getD now
    endDate := ex.endTime.getD now
    location := ex.location
    status := convertFreeBusyStatus ex.freeBusyStatus
    priority := "normal"
    organizer := calendarConvertEmailAddress ex.organizer
    attendees := calendarConvertEmailAddresses ex.attendees
    isRecurring := false
    exchangeId := ex.id
    lastModified := now
    created := now }

/-- `CalendarSync.syncExchangeToThunderbird` (email-sync.js:809-876):
`getThunderbirdCalendarItems` returns `[]` in the source
(email-sync.js:951-965), so the snapshot map is empty and every Exchange
item within the window is converted and created
(`createThunderbirdCalendarItem` logs and reports success,
email-sync.js:970-984). -/
def calendarSyncExchangeToThunderbird (api : CalendarApis σ) (now : Int) (st : σ)
    (win : CalendarWindow) : Except String CalendarResults :=
  let thunderbirdItems : List TbCalendarItem := []
  let snap := jsMapGet generateCalendarItemKey thunderbirdItems
  match api.getCalendarItems st win.startDate win.endDate with
  | .error e => .error e
  | .ok r =>
    if !r.success then .error "Failed to get Exchange calendar items"
    else
      match r.items with
      | none => .error "Failed to get Exchange calendar items"
      | some items =>
        .ok (items.foldl (fun (res : CalendarResults) item =>
          let itemKey := generateCalendarItemKeyFromExchange item
          match snap itemKey with
          | some _ => res
          | none =>
            let _newItem := convertExchangeCalendarItem now item
            { res with created := res.created + 1,
                       totalSynced := res.totalSynced + 1 }) {})

/-- `CalendarSync.syncThunderbirdToExchange` (email-sync.js:881-946):
the local item list is `[]`, so after fetching the Exchange snapshot the
item loop runs zero times. -/
def calendarSyncThunderbirdToExchange (api : CalendarApis σ) (st : σ)
    (win : CalendarWindow) : Except String CalendarResults :=
  let thunderbirdItems : List TbCalendarItem := []
  match api.getCalendarItems st win.startDate win.endDate with
  | .error e => .error e
  | .ok _r =>
    .ok (thunderbirdItems.foldl (fun (res : CalendarResults) _item => res) {})

/-- `CalendarSync.performBidirectionalSync` (email-sync.js:762-804). -/
def calendarPerformBidirectionalSync (api : CalendarApis σ) (now : Int) (st : σ)
    (win : CalendarWindow) : Except String CalendarResults :=
  match calendarSyncExchangeToThunderbird api now st win with
  | .error e => .error e
  | .ok r1 =>
    match calendarSyncThunderbirdToExchange api st win with
    | .error e => .error e
    | .ok r2 => .ok (r1.add r2)

/-- `CalendarSync.sync` (email-sync.js:649-715). The store state `σ` is
never written: the local calendar item operations are logging stubs in
the source. -/
def calendarSyncEntry (api : CalendarApis σ) (svc : ServiceState CalendarStatistics)
    (account : Account) (now : Int) (st : σ) :
    Except String CalendarSyncValue × ServiceState CalendarStatistics × σ :=
  if syncInProgress svc account.id then
    (.ok { success := false, error := some "Sync already in progress" }, svc, st)
  else
    let svc1 := syncStateStart svc account.id {}
    let _calendar := ("exchange-calendar-" ++ account.id,
      "Exchange - " ++ account.displayName)
    let syncWindow := getSyncWindow now
    match calendarPerformBidirectionalSync api now st syncWindow with
    | .error e => (.error e, syncStateFail svc1 account.id e {}, st)
    | .ok results =>
      let syncDuration := now - now
      let svc2 := syncStateFinish svc1 account.id
        { totalSynced := results.totalSynced, created := results.created,
          updated := results.updated, deleted := results.deleted,
          errors := results.errors, lastSyncDuration := syncDuration } now
      (.ok { success := true, totalSynced := results.totalSynced,
             created := results.created, updated := results.updated,
             deleted := results.deleted, errors := results.errors,
             duration := syncDuration }, svc2, st)

/-! ### Supporting instances and concrete stores for the claims -/

/-- A trivial always-succeeding client over a unit store. -/
def unitContactApis : ContactApis Unit where
  tbList _ := []
  getContacts _ _ _ := .ok { success := true, contacts := some [] }
  tbCreate _ _ := .ok ()
  tbUpdate _ _ _ := .ok ()
  exCreate _ _ := .ok ()
  exUpdate _ _ _ := .ok ()

/-- A client whose store writes all throw. -/
def failContactApis : ContactApis Unit where
  tbList _ := []
  getContacts _ _ _ := .error "NetworkError"
  tbCreate _ _ := .error "create failed"
  tbUpdate _ _ _ := .error "update failed"
  exCreate _ _ := .error "create failed"
  exUpdate _ _ _ := .error "update failed"

def unitAddressBookApis : AddressBookApis Unit where
  list _ := []
  create _ name := .ok ((), { id := 0, name := name })

def unitEmailApis : EmailApis Unit where
  accountsList _ := [{ id := 3 }]
  foldersGetAll _ _ := []
  foldersCreate _ _ _ := .ok ()
  messagesList _ _ := []
  getFolderHierarchy _ := .ok {}
  getMessages _ _ _ _ := .ok { success := true, messages := some [] }
  getMessage _ _ := .ok {}

def unitCalendarApis : CalendarApis Unit where
  getCalendarItems _ _ _ := .ok { success := true, items := some [] }

/-- A service-state map in which account "acct" has a sync in flight. -/
def busyContactSvc : ServiceState ContactStatistics :=
  { syncState := [("acct", { inProgress := true, statistics := {} })] }

def busyEmailSvc : ServiceState EmailStatistics :=
  { syncState := [("acct", { inProgress := true, statistics := {} })] }

def busyCalendarSvc : ServiceState CalendarStatistics :=
  { syncState := [("acct", { inProgress := true, statistics := {} })] }

/-- Two remote contacts sharing a deduplication key (same email,
different first names): the store on which unconditional idempotence
fails. -/
def c1CexWorld : ContactWorld :=
  { tb := []
    ex := [⟨1, { email := "a@b", firstName := "X" }⟩,
           ⟨2, { email := "a@b", firstName := "Y" }⟩]
    tbNextId := 100
    exNextId := 100 }

/-- A well-keyed pair of stores for the idempotence witness. -/
def c1WitnessWorld : ContactWorld :=
  { tb := [⟨7, { DisplayName := "Zed", WorkPhone := "123" }⟩]
    ex := [⟨1, { email := "a@b", firstName := "X" }⟩]
    tbNextId := 100
    exNextId := 100 }

/-- 150 remote contacts: two pages at batch size 100. -/
def c7World : ContactWorld :=
  { tb := []
    ex := (List.range 150).map (fun i => ⟨i, {}⟩)
    tbNextId := 200
    exNextId := 200 }

/-- Whether processing one Exchange contact in the pull pass raises (the
condition the per-item `catch` observes). -/
def exchangeItemFailed (api : ContactApis σ) (snap : String → Option TbContact)
    (st : σ) (e : ExContact) : Bool :=
  match snap (generateContactKeyFromExchange e.props) with
  | some tb =>
    needsUpdate tb.props e.props &&
      (match api.tbUpdate st tb.id (convertExchangeContact e.props) with
       | .ok _ => false
       | .error _ => true)
  | none =>
    match api.tbCreate st (convertExchangeContact e.props) with
    | .ok _ => false
    | .error _ => true

/-- Whether processing one Thunderbird contact in the push pass raises. -/
def thunderbirdItemFailed (api : ContactApis σ) (snap : String → Option ExContact)
    (st : σ) (t : TbContact) : Bool :=
  match snap (generateContactKey t.props) with
  | some ex =>
    thunderbirdContactNeedsUpdate t.props ex.props &&
      (match api.exUpdate st ex.id (convertThunderbirdContact t.props) with
       | .ok _ => false
       | .error _ => true)
  | none =>
    match api.exCreate st (convertThunderbirdContact t.props) with
    | .ok _ => false
    | .error _ => true

/-- §4.2 of the specification describes the calendar instant comparison
as "defaulting to now when absent".  Modelled from the spec for
comparison with the code's `calendarNeedsUpdate`, which defaults to 0. -/
def specCalendarNeedsUpdate (now : Int) (tb : TbCalendarItem) (ex : ExCalendarItem) : Bool :=
  calendarFieldsToCompare.any (fun f => f.1 tb != f.2 ex) ||
  (tb.startDate.getD now != ex.start.getD now) ||
  (tb.endDate.getD now != ex.endTime.getD now)

/-! ### Lemmas about the snapshot-map lookup -/

theorem jsMapGet_mem {key : α → String} {xs : List α} {k : String} {x : α}
    (h : jsMapGet key xs k = some x) : x ∈ xs ∧ key x = k := by
  unfold jsMapGet at h
  have hx : x ∈ xs.filter (fun x => key x == k) := by
    have : (xs.filter (fun x => key x == k)).getLast?
        = (xs.filter (fun x => key x == k)).reverse.head? :=
      List.getLast?_eq_head?_reverse
    rw [this] at h
    have : x ∈ (xs.filter (fun x => key x == k)).reverse := List.mem_of_mem_head? (by simp [h])
    simpa using this
  rw [List.mem_filter] at hx
  exact ⟨hx.1, by simpa using hx.2⟩

theorem jsMapGet_eq_none {key : α → String} {xs : List α} {k : String} :
    jsMapGet key xs k = none ↔ ∀ x ∈ xs, key x ≠ k := by
  unfold jsMapGet
  rw [List.getLast?_eq_none_iff, List.filter_eq_nil_iff]
  simp

theorem jsMapGet_append {key : α → String} (xs ys : List α) (k : String) :
    jsMapGet key (xs ++ ys) k = (jsMapGet key ys k).or (jsMapGet key xs k) := by
  unfold jsMapGet
  rw [List.filter_append, List.getLast?_append]

theorem jsMapGet_append_right {key : α → String} {xs ys : List α} {k : String} {y : α}
    (h : jsMapGet key ys k = some y) :
    jsMapGet key (xs ++ ys) k = some y := by
  rw [jsMapGet_append, h]; rfl

theorem jsMapGet_append_left {key : α → String} {xs ys : List α} {k : String}
    (h : jsMapGet key ys k = none) :
    jsMapGet key (xs ++ ys) k = jsMapGet key xs k := by
  rw [jsMapGet_append, h]; rfl

theorem jsMapGet_cons_of_ne {key : α → String} {x : α} {xs : List α} {k : String}
    (h : key x ≠ k) : jsMapGet key (x :: xs) k = jsMapGet key xs k := by
  unfold jsMapGet
  rw [List.filter_cons, if_neg (by simpa using h)]

/-- In a store whose keys are pairwise distinct, looking up a member's
own key finds exactly that member. -/
theorem jsMapGet_self {key : α → String} {xs : List α} {x : α}
    (hn : (xs.map key).Nodup) (hm : x ∈ xs) : jsMapGet key xs (key x) = some x := by
  induction xs with
  | nil => cases hm
  | cons a as ih =>
    rw [List.map_cons, List.nodup_cons] at hn
    rcases List.mem_cons.mp hm with rfl | hm'
    · have : jsMapGet key as (key x) = none := by
        rw [jsMapGet_eq_none]
        intro y hy hk
        exact hn.1 (hk ▸ List.mem_map_of_mem key hy)
      have : jsMapGet key ([x] ++ as) (key x) = jsMapGet key [x] (key x) :=
        jsMapGet_append_left this
      simpa [jsMapGet] using this
    · have hs := ih hn.2 hm'
      have : jsMapGet key ([a] ++ as) (key x) = some x := jsMapGet_append_right hs
      simpa using this

/-! ### Lemmas about the pure pass projection -/

theorem passItems_cons (keyA : A → String) (bId : B → Nat) (dec : B → A → Bool)
    (upd : A → B → B) (mkNew : Nat → A → B) (snap : String → Option B)
    (S : List B) (nid : Nat) (res : SyncResults) (a : A) (rest : List A) :
    passItems keyA bId dec upd mkNew snap (S, nid, res) (a :: rest) =
      match snap (keyA a) with
      | some b =>
        if dec b a then
          passItems keyA bId dec upd mkNew snap
            (S.map (fun x => if bId x == bId b then upd a x else x), nid,
             { res with updated := res.updated + 1, totalSynced := res.totalSynced + 1 }) rest
        else
          passItems keyA bId dec upd mkNew snap (S, nid, res) rest
      | none =>
        passItems keyA bId dec upd mkNew snap
          (S ++ [mkNew nid a], nid + 1,
           { res with created := res.created + 1, totalSynced := res.totalSynced + 1 }) rest := rfl

/-- If every item finds a snapshot match that needs no update, the pass
changes nothing: no store write, no fresh id, no counter. -/
theorem passItems_skip (keyA : A → String) (bId : B → Nat) (dec : B → A → Bool)
    (upd : A → B → B) (mkNew : Nat → A → B) (snap : String → Option B)
    (acc : List B × Nat × SyncResults) (items : List A)
    (h : ∀ a ∈ items, ∃ b, snap (keyA a) = some b ∧ dec b a = false) :
    passItems keyA bId dec upd mkNew snap acc items = acc := by
  induction items with
  | nil => rfl
  | cons a rest ih =>
    obtain ⟨S, nid, res⟩ := acc
    obtain ⟨b, hb, hdec⟩ := h a (List.mem_cons_self a rest)
    rw [passItems_cons, hb]
    simp only [hdec, if_false, Bool.false_eq_true]
    exact ih fun a' ha' => h a' (List.mem_cons_of_mem _ ha')

theorem applyUpds_cons (keyA : A → String) (keyB : B → String) (bId : B → Nat)
    (dec : B → A → Bool) (upd : A → B → B) (S₀ : List B) (a : A) (items : List A) (b : B) :
    applyUpds keyA keyB bId dec upd S₀ (a :: items) b =
      applyUpds keyA keyB bId dec upd S₀ items
        (stepUpd keyA keyB bId dec upd S₀ a b) := rfl

theorem stepUpd_id (keyA : A → String) (keyB : B → String) (bId : B → Nat)
    (dec : B → A → Bool) (upd : A → B → B)
    (hIdUpd : ∀ a b, bId (upd a b) = bId b) (S₀ : List B) (a : A) (b : B) :
    bId (stepUpd keyA keyB bId dec upd S₀ a b) = bId b := by
  unfold stepUpd
  cases jsMapGet keyB S₀ (keyA a) with
  | none => rfl
  | some b' =>
    dsimp only
    split
    · exact hIdUpd a b
    · rfl

/-- A store element whose key is matched by no item passes through the
accumulated updates untouched (the id identifies it in the store). -/
theorem applyUpds_fix (keyA : A → String) (keyB : B → String) (bId : B → Nat)
    (dec : B → A → Bool) (upd : A → B → B)
    (S₀ : List B) (hIds : (S₀.map bId).Nodup)
    {b₀ : B} (hb₀ : b₀ ∈ S₀) (items : List A)
    (h : ∀ a ∈ items, keyA a ≠ keyB b₀) {b : B} (hid : bId b = bId b₀) :
    applyUpds keyA keyB bId dec upd S₀ items b = b := by
  induction items with
  | nil => rfl
  | cons a rest ih =>
    rw [applyUpds_cons]
    have hstep : stepUpd keyA keyB bId dec upd S₀ a b = b := by
      unfold stepUpd
      cases hsnap : jsMapGet keyB S₀ (keyA a) with
      | none => rfl
      | some b' =>
        obtain ⟨hmem, hkey⟩ := jsMapGet_mem hsnap
        have hne : b' ≠ b₀ := fun e => h a (List.mem_cons_self a rest) (by rw [← hkey, e])
        have hidne : bId b' ≠ bId b₀ := fun e => hne (List.inj_on_of_nodup_map hIds hmem hb₀ e)
        have hcond : (bId b == bId b') = false := by
          rw [beq_eq_false_iff_ne, hid]
          exact fun e => hidne e.symm
        simp [hcond]
    rw [hstep]
    exact ih fun a' ha' => h a' (List.mem_cons_of_mem _ ha')

/-- Under pairwise-distinct keys on both sides, the accumulated update of
a store member is decided by the unique item carrying its key. -/
theorem applyUpds_spec (keyA : A → String) (keyB : B → String) (bId : B → Nat)
    (dec : B → A → Bool) (upd : A → B → B)
    (hIdUpd : ∀ a b, bId (upd a b) = bId b)
    (S₀ : List B) (hKeysB : (S₀.map keyB).Nodup) (hIds : (S₀.map bId).Nodup)
    (items : List A) (hKeysA : (items.map keyA).Nodup)
    {b₀ : B} (hb₀ : b₀ ∈ S₀) :
    applyUpds keyA keyB bId dec upd S₀ items b₀ =
      match items.find? (fun a => keyA a == keyB b₀) with
      | some a => if dec b₀ a then upd a b₀ else b₀
      | none => b₀ := by
  induction items with
  | nil => rfl
  | cons a rest ih =>
    rw [applyUpds_cons, List.find?_cons]
    rw [List.map_cons, List.nodup_cons] at hKeysA
    by_cases hk : keyA a = keyB b₀
    · have hsnap : jsMapGet keyB S₀ (keyA a) = some b₀ := by
        rw [hk]; exact jsMapGet_self hKeysB hb₀
      have hstep : stepUpd keyA keyB bId dec upd S₀ a b₀ =
          if dec b₀ a then upd a b₀ else b₀ := by
        unfold stepUpd
        rw [hsnap]
        by_cases hd : dec b₀ a = true <;> simp [hd]
      rw [hstep]
      have hrest : ∀ a' ∈ rest, keyA a' ≠ keyB b₀ := by
        intro a' ha' he
        exact hKeysA.1 (by rw [hk, ← he]; exact List.mem_map_of_mem keyA ha')
      have hfix : applyUpds keyA keyB bId dec upd S₀ rest
          (if dec b₀ a then upd a b₀ else b₀) =
          (if dec b₀ a then upd a b₀ else b₀) := by
        apply applyUpds_fix keyA keyB bId dec upd S₀ hIds hb₀ rest hrest
        by_cases hd : dec b₀ a = true <;> simp [hd, hIdUpd]
      rw [hfix]
      simp [hk]
    · have hstep : stepUpd keyA keyB bId dec upd S₀ a b₀ = b₀ := by
        unfold stepUpd
        cases hsnap : jsMapGet keyB S₀ (keyA a) with
        | none => rfl
        | some b' =>
          obtain ⟨hmem, hkey⟩ := jsMapGet_mem hsnap
          have hne : b' ≠ b₀ := fun e => hk (by rw [← hkey, e])
          have hidne : (bId b₀ == bId b') = false := by
            rw [beq_eq_false_iff_ne]
            exact fun e => hne (List.inj_on_of_nodup_map hIds hmem hb₀ e.symm)
          simp [hidne]
      rw [hstep]
      have : (keyA a == keyB b₀) = false := by rwa [beq_eq_false_iff_ne]
      rw [this]
      exact ih hKeysA.2

theorem passCreations_cons (keyA : A → String) (keyB : B → String) (mkNew : Nat → A → B)
    (S₀ : List B) (a : A) (rest : List A) (nid : Nat) :
    passCreations keyA keyB mkNew S₀ (a :: rest) nid =
      match jsMapGet keyB S₀ (keyA a) with
      | some _ => passCreations keyA keyB mkNew S₀ rest nid
      | none => mkNew nid a :: passCreations keyA keyB mkNew S₀ rest (nid + 1) := rfl

theorem passCreations_mem (keyA : A → String) (keyB : B → String) (mkNew : Nat → A → B)
    (S₀ : List B) {items : List A} {nid : Nat} {x : B}
    (hx : x ∈ passCreations keyA keyB mkNew S₀ items nid) :
    ∃ a ∈ items, jsMapGet keyB S₀ (keyA a) = none ∧ ∃ n, x = mkNew n a := by
  induction items generalizing nid with
  | nil => cases hx
  | cons a rest ih =>
    rw [passCreations_cons] at hx
    cases hsnap : jsMapGet keyB S₀ (keyA a) with
    | some b =>
      rw [hsnap] at hx
      obtain ⟨a', ha', h1, h2⟩ := ih hx
      exact ⟨a', List.mem_cons_of_mem _ ha', h1, h2⟩
    | none =>
      rw [hsnap] at hx
      rcases List.mem_cons.mp hx with rfl | hx'
      · exact ⟨a, List.mem_cons_self a rest, hsnap, nid, rfl⟩
      · obtain ⟨a', ha', h1, h2⟩ := ih hx'
        exact ⟨a', List.mem_cons_of_mem _ ha', h1, h2⟩

/-- Keys of the created elements: exactly the keys of the unmatched items. -/
theorem passCreations_map_key (keyA : A → String) (keyB : B → String) (mkNew : Nat → A → B)
    (hKeyNew : ∀ n a, keyB (mkNew n a) = keyA a)
    (S₀ : List B) (items : List A) (nid : Nat) :
    (passCreations keyA keyB mkNew S₀ items nid).map keyB =
      (items.filter (fun a => (jsMapGet keyB S₀ (keyA a)).isNone)).map keyA := by
  induction items generalizing nid with
  | nil => rfl
  | cons a rest ih =>
    rw [passCreations_cons, List.filter_cons]
    cases hsnap : jsMapGet keyB S₀ (keyA a) with
    | some b => simp only [hsnap, Option.isNone_some, if_false, Bool.false_eq_true]; exact ih nid
    | none =>
      simp only [hsnap, Option.isNone_none, if_true, List.map_cons, hKeyNew]
      rw [ih (nid + 1)]

/-- Looking an unmatched item's key up among the created elements finds a
creation built from that very item (keys of items pairwise distinct). -/
theorem passCreations_lookup (keyA : A → String) (keyB : B → String) (mkNew : Nat → A → B)
    (hKeyNew : ∀ n a, keyB (mkNew n a) = keyA a)
    (S₀ : List B) {items : List A} (hKeysA : (items.map keyA).Nodup)
    {a₀ : A} (ha₀ : a₀ ∈ items) (hnone : jsMapGet keyB S₀ (keyA a₀) = none) (nid : Nat) :
    ∃ n, jsMapGet keyB (passCreations keyA keyB mkNew S₀ items nid) (keyA a₀) =
      some (mkNew n a₀) := by
  induction items generalizing nid with
  | nil => cases ha₀
  | cons a rest ih =>
    rw [List.map_cons, List.nodup_cons] at hKeysA
    rw [passCreations_cons]
    rcases List.mem_cons.mp ha₀ with rfl | ha'
    · rw [hnone]
      have htail : jsMapGet keyB (passCreations keyA keyB mkNew S₀ rest (nid + 1))
          (keyA a₀) = none := by
        rw [jsMapGet_eq_none]
        intro y hy he
        obtain ⟨a', ha', -, n, rfl⟩ := passCreations_mem keyA keyB mkNew S₀ hy
        rw [hKeyNew] at he
        exact hKeysA.1 (he ▸ List.mem_map_of_mem keyA ha')
      have : jsMapGet keyB ([mkNew nid a₀]
            ++ passCreations keyA keyB mkNew S₀ rest (nid + 1)) (keyA a₀)
          = jsMapGet keyB [mkNew nid a₀] (keyA a₀) :=
        jsMapGet_append_left htail
      rw [List.singleton_append] at this
      rw [this]
      exact ⟨nid, by simp [jsMapGet, hKeyNew]⟩
    · cases hsnap : jsMapGet keyB S₀ (keyA a) with
      | some b => exact ih hKeysA.2 ha' nid
      | none =>
        obtain ⟨n, hn⟩ := ih hKeysA.2 ha' (nid + 1)
        refine ⟨n, ?_⟩
        have hne : keyB (mkNew nid a) ≠ keyA a₀ := by
          rw [hKeyNew]
          exact fun he => hKeysA.1 (he ▸ List.mem_map_of_mem keyA ha')
        rw [jsMapGet_cons_of_ne hne]
        exact hn

/-- Store characterization of a pass over the pure stores: the final
store is the initial one with the per-element accumulated updates
applied, followed by the creations, and the fresh-id counter advances by
the number of creations. `f`/`new` generalize the accumulator for the
induction; instantiate `f := id`, `new := []`. -/
theorem passItems_store (keyA : A → String) (keyB : B → String) (bId : B → Nat)
    (dec : B → A → Bool) (upd : A → B → B) (mkNew : Nat → A → B)
    (hIdUpd : ∀ a b, bId (upd a b) = bId b)
    (hIdNew : ∀ n a, bId (mkNew n a) = n)
    (S₀ : List B) (nid0 : Nat) (hFresh : ∀ b ∈ S₀, bId b < nid0) :
    ∀ (items : List A) (f : B → B), (∀ b, bId (f b) = bId b) →
    ∀ (new : List B), (∀ x ∈ new, nid0 ≤ bId x) →
    ∀ (nid : Nat), nid0 ≤ nid → ∀ (res : SyncResults),
    ∃ res', passItems keyA bId dec upd mkNew (jsMapGet keyB S₀)
        (S₀.map f ++ new, nid, res) items
      = (S₀.map (fun b => applyUpds keyA keyB bId dec upd S₀ items (f b))
           ++ (new ++ passCreations keyA keyB mkNew S₀ items nid),
         nid + (passCreations keyA keyB mkNew S₀ items nid).length, res') := by
  intro items
  induction items with
  | nil =>
    intro f hf new hnew nid hnid res
    exact ⟨res, by simp [passItems, passCreations, applyUpds]⟩
  | cons a rest ih =>
    intro f hf new hnew nid hnid res
    rw [passItems_cons]
    cases hsnap : jsMapGet keyB S₀ (keyA a) with
    | some bstar =>
      obtain ⟨hmem, hkey⟩ := jsMapGet_mem hsnap
      have hbid : bId bstar < nid0 := hFresh bstar hmem
      by_cases hdec : dec bstar a = true
      · simp only [hdec, if_true]
        have hmapnew : new.map (fun x => if bId x == bId bstar then upd a x else x) = new := by
          rw [show new.map (fun x => if bId x == bId bstar then upd a x else x)
              = new.map id from ?_, List.map_id]
          apply List.map_congr_left
          intro x hx
          have : (bId x == bId bstar) = false := by
            rw [beq_eq_false_iff_ne]
            have := hnew x hx
            omega
          simp [this]
        rw [List.map_append, hmapnew, List.map_map]
        obtain ⟨res', hres'⟩ := ih (fun b => if bId (f b) == bId bstar then upd a (f b) else f b)
          (by
            intro b
            dsimp only
            by_cases hc : (bId (f b) == bId bstar) = true
            · rw [if_pos hc, hIdUpd]; exact hf b
            · rw [if_neg hc]; exact hf b)
          new hnew nid hnid
          { res with updated := res.updated + 1, totalSynced := res.totalSynced + 1 }
        refine ⟨res', ?_⟩
        rw [show (fun x => if bId x == bId bstar then upd a x else x) ∘ f
            = fun b => if bId (f b) == bId bstar then upd a (f b) else f b from rfl]
        rw [hres']
        have happly : ∀ b : B,
            applyUpds keyA keyB bId dec upd S₀ rest
              (if bId (f b) == bId bstar then upd a (f b) else f b)
            = applyUpds keyA keyB bId dec upd S₀ (a :: rest) (f b) := by
          intro b
          rw [applyUpds_cons]
          congr 1
          unfold stepUpd
          rw [hsnap]
          simp [hdec]
        rw [List.map_congr_left (fun b _ => happly b)]
        rw [passCreations_cons, hsnap]
      · simp only [hdec, if_false, Bool.false_eq_true]
        obtain ⟨res', hres'⟩ := ih f hf new hnew nid hnid res
        refine ⟨res', ?_⟩
        rw [hres']
        have happly : ∀ b : B,
            applyUpds keyA keyB bId dec upd S₀ rest (f b)
            = applyUpds keyA keyB bId dec upd S₀ (a :: rest) (f b) := by
          intro b
          rw [applyUpds_cons]
          congr 1
          unfold stepUpd
          rw [hsnap]
          simp [hdec]
        rw [List.map_congr_left (fun b _ => happly b)]
        rw [passCreations_cons, hsnap]
    | none =>
      rw [show S₀.map f ++ new ++ [mkNew nid a] = S₀.map f ++ (new ++ [mkNew nid a]) from
        (List.append_assoc _ _ _)]
      obtain ⟨res', hres'⟩ := ih f hf (new ++ [mkNew nid a])
        (by
          intro x hx
          rcases List.mem_append.mp hx with h | h
          · exact hnew x h
          · rw [List.mem_singleton.mp h, hIdNew]; exact hnid)
        (nid + 1) (by omega)
        { res with created := res.created + 1, totalSynced := res.totalSynced + 1 }
      refine ⟨res', ?_⟩
      rw [hres']
      have happly : ∀ b : B,
          applyUpds keyA keyB bId dec upd S₀ rest (f b)
          = applyUpds keyA keyB bId dec upd S₀ (a :: rest) (f b) := by
        intro b
        rw [applyUpds_cons]
        congr 1
        unfold stepUpd
        rw [hsnap]
      rw [List.map_congr_left (fun b _ => happly b)]
      rw [passCreations_cons, hsnap]
      simp [List.append_assoc]
      omega


/-! ### Key agreement and diff facts across the converters -/

/-- The Thunderbird key of a converted Exchange contact is the Exchange
key of the original: both branches of the key functions read the very
fields the converter copies. -/
theorem key_convertExchange (p : ExContactProps) :
    generateContactKey (convertExchangeContact p) = generateContactKeyFromExchange p := rfl

/-- Mirror fact for the other converter direction. -/
theorem key_convertThunderbird (p : TbContactProps) :
    generateContactKeyFromExchange (convertThunderbirdContact p) = generateContactKey p := rfl

/-- A freshly converted Exchange contact never diffs against its origin. -/
theorem needsUpdate_convert (p : ExContactProps) :
    needsUpdate (convertExchangeContact p) p = false := by
  simp [needsUpdate, contactFieldsToCompare, convertExchangeContact]

/-- Push-direction diff of a converted Exchange contact against its origin. -/
theorem tbNeedsUpdate_convert (p : ExContactProps) :
    thunderbirdContactNeedsUpdate (convertExchangeContact p) p = false := by
  simp [thunderbirdContactNeedsUpdate, contactFieldsToCompare, convertExchangeContact]

/-- A local contact never diffs against its own conversion to Exchange. -/
theorem needsUpdate_convertTb (p : TbContactProps) :
    needsUpdate p (convertThunderbirdContact p) = false := by
  simp [needsUpdate, contactFieldsToCompare, convertThunderbirdContact]

/-- Push-direction variant of `needsUpdate_convertTb`. -/
theorem tbNeedsUpdate_convertTb (p : TbContactProps) :
    thunderbirdContactNeedsUpdate p (convertThunderbirdContact p) = false := by
  simp [thunderbirdContactNeedsUpdate, contactFieldsToCompare, convertThunderbirdContact]

/-- The push-direction diff only ever fires on a field the symmetric diff
fires on. -/
theorem tbNeedsUpdate_of_needsUpdate_false {t : TbContactProps} {e : ExContactProps}
    (h : needsUpdate t e = false) : thunderbirdContactNeedsUpdate t e = false := by
  simp only [needsUpdate, contactFieldsToCompare, List.any_cons, List.any_nil,
    Bool.or_eq_false_iff] at h
  simp [thunderbirdContactNeedsUpdate, contactFieldsToCompare, h.1, h.2.1, h.2.2.1,
    h.2.2.2.1, h.2.2.2.2.1, h.2.2.2.2.2.1]

/-! ### Bridges: the concrete loops over the pure stores equal the
pure projection -/


theorem syncExchangeItems_pure (snap : String → Option TbContact) (w : ContactWorld)
    (res : SyncResults) (items : List ExContact) :
    syncExchangeItems pureContactApis snap (w, res) items
      = withTb w (passItems exKey TbContact.id exToTbDec exToTbUpd exToTbNew snap
          (w.tb, w.tbNextId, res) items) := by
  induction items generalizing w res with
  | nil => rfl
  | cons e rest ih =>
    show syncExchangeItems pureContactApis snap
        (syncExchangeItemStep pureContactApis snap (w, res) e) rest = _
    rw [passItems_cons]
    unfold syncExchangeItemStep exKey
    dsimp only
    cases hsnap : snap (generateContactKeyFromExchange e.props) with
    | some tb =>
      by_cases hdec : needsUpdate tb.props e.props = true
      · simp only [hdec, if_true, exToTbDec]
        rw [ih]
        rfl
      · simp only [hdec, if_false, Bool.false_eq_true, exToTbDec]
        exact ih w res
    | none =>
      rw [ih]
      rfl

theorem syncThunderbirdItems_pure (snap : String → Option ExContact) (w : ContactWorld)
    (res : SyncResults) (items : List TbContact) :
    syncThunderbirdItems pureContactApis snap (w, res) items
      = withEx w (passItems tbKey ExContact.id tbToExDec tbToExUpd tbToExNew snap
          (w.ex, w.exNextId, res) items) := by
  induction items generalizing w res with
  | nil => rfl
  | cons t rest ih =>
    show syncThunderbirdItems pureContactApis snap
        (syncThunderbirdItemStep pureContactApis snap (w, res) t) rest = _
    rw [passItems_cons]
    unfold syncThunderbirdItemStep tbKey
    dsimp only
    cases hsnap : snap (generateContactKey t.props) with
    | some ex =>
      by_cases hdec : thunderbirdContactNeedsUpdate t.props ex.props = true
      · simp only [hdec, if_true, tbToExDec]
        rw [ih]
        rfl
      · simp only [hdec, if_false, Bool.false_eq_true, tbToExDec]
        exact ih w res
    | none =>
      rw [ih]
      rfl

/-! ### Pagination over the pure store returns every item -/

theorem syncExchangeItems_append (api : ContactApis σ) (snap : String → Option TbContact)
    (acc : σ × SyncResults) (xs ys : List ExContact) :
    syncExchangeItems api snap acc (xs ++ ys)
      = syncExchangeItems api snap (syncExchangeItems api snap acc xs) ys :=
  List.foldl_append _ _ _ _

theorem syncE2TLoop_pure (snap : String → Option TbContact) (E : List ExContact) :
    ∀ (fuel offset : Nat) (w : ContactWorld) (res : SyncResults) (tr : PageTrace),
    w.ex = E → E.length - offset < fuel →
    ∃ tr', syncExchangeToThunderbirdLoop pureContactApis snap contactBatchSize
        fuel offset w res tr
      = ((syncExchangeItems pureContactApis snap (w, res) (E.drop offset)).1,
         (syncExchangeItems pureContactApis snap (w, res) (E.drop offset)).2, tr') := by
  intro fuel
  induction fuel with
  | zero => intro offset w res tr _ h; omega
  | succ f ih =>
    intro offset w res tr hex hrem
    have hstep : syncExchangeToThunderbirdLoop pureContactApis snap contactBatchSize
        (f + 1) offset w res tr
      = (if ((w.ex.drop offset).take contactBatchSize).length == contactBatchSize then
           syncExchangeToThunderbirdLoop pureContactApis snap contactBatchSize f
             (offset + contactBatchSize)
             (syncExchangeItems pureContactApis snap (w, res)
               ((w.ex.drop offset).take contactBatchSize)).1
             (syncExchangeItems pureContactApis snap (w, res)
               ((w.ex.drop offset).take contactBatchSize)).2
             { offsets := tr.offsets ++ [offset], sleeps := tr.sleeps + 1 }
         else
           ((syncExchangeItems pureContactApis snap (w, res)
               ((w.ex.drop offset).take contactBatchSize)).1,
            (syncExchangeItems pureContactApis snap (w, res)
               ((w.ex.drop offset).take contactBatchSize)).2,
            { offsets := tr.offsets ++ [offset], sleeps := tr.sleeps })) := rfl
    rw [hstep, hex]
    have hsplit : E.drop offset
        = (E.drop offset).take contactBatchSize ++ E.drop (offset + contactBatchSize) := by
      conv_lhs => rw [← List.take_append_drop contactBatchSize (E.drop offset)]
      rw [List.drop_drop]
    by_cases hlen : ((E.drop offset).take contactBatchSize).length = contactBatchSize
    · have hbeq : (((E.drop offset).take contactBatchSize).length == contactBatchSize) = true := by
        simpa using hlen
      rw [hbeq, if_pos rfl]
      have hfull : contactBatchSize ≤ E.length - offset := by
        have h1 := List.length_take contactBatchSize (E.drop offset)
        have h2 := List.length_drop offset E
        rw [hlen] at h1
        omega
      have hb : (0:Nat) < contactBatchSize := by norm_num [contactBatchSize]
      have hex' : (syncExchangeItems pureContactApis snap (w, res)
          ((E.drop offset).take contactBatchSize)).1.ex = E := by
        rw [syncExchangeItems_pure]
        exact hex
      obtain ⟨tr', htr'⟩ := ih (offset + contactBatchSize)
        (syncExchangeItems pureContactApis snap (w, res)
          ((E.drop offset).take contactBatchSize)).1
        (syncExchangeItems pureContactApis snap (w, res)
          ((E.drop offset).take contactBatchSize)).2
        { offsets := tr.offsets ++ [offset], sleeps := tr.sleeps + 1 }
        hex' (by omega)
      refine ⟨tr', ?_⟩
      rw [htr']
      conv_rhs => rw [hsplit, syncExchangeItems_append]
    · have hbeq : (((E.drop offset).take contactBatchSize).length == contactBatchSize) = false := by
        simpa using hlen
      rw [hbeq]
      simp only [Bool.false_eq_true, if_false]
      have hshort : (E.drop offset).length ≤ contactBatchSize := by
        have h1 := List.length_take contactBatchSize (E.drop offset)
        by_contra hc
        push_neg at hc
        apply hlen
        omega
      have htake : (E.drop offset).take contactBatchSize = E.drop offset :=
        List.take_of_length_le hshort
      rw [htake]
      exact ⟨_, rfl⟩

theorem getAllLoop_pure (w : ContactWorld) :
    ∀ (fuel offset : Nat) (acc : List ExContact) (tr : PageTrace),
    w.ex.length - offset < fuel →
    ∃ tr', getAllExchangeContactsLoop pureContactApis contactBatchSize fuel offset w acc tr
      = (acc ++ w.ex.drop offset, tr') := by
  intro fuel
  induction fuel with
  | zero => intro offset acc tr h; omega
  | succ f ih =>
    intro offset acc tr hrem
    have hstep : getAllExchangeContactsLoop pureContactApis contactBatchSize
        (f + 1) offset w acc tr
      = (if ((w.ex.drop offset).take contactBatchSize).length == contactBatchSize then
           getAllExchangeContactsLoop pureContactApis contactBatchSize f
             (offset + contactBatchSize) w
             (acc ++ (w.ex.drop offset).take contactBatchSize)
             { offsets := tr.offsets ++ [offset], sleeps := tr.sleeps }
         else
           (acc ++ (w.ex.drop offset).take contactBatchSize,
            { offsets := tr.offsets ++ [offset], sleeps := tr.sleeps })) := rfl
    rw [hstep]
    have hsplit : w.ex.drop offset
        = (w.ex.drop offset).take contactBatchSize ++ w.ex.drop (offset + contactBatchSize) := by
      conv_lhs => rw [← List.take_append_drop contactBatchSize (w.ex.drop offset)]
      rw [List.drop_drop]
    by_cases hlen : ((w.ex.drop offset).take contactBatchSize).length = contactBatchSize
    · have hbeq : (((w.ex.drop offset).take contactBatchSize).length == contactBatchSize) = true := by
        simpa using hlen
      rw [hbeq, if_pos rfl]
      have hfull : contactBatchSize ≤ w.ex.length - offset := by
        have h1 := List.length_take contactBatchSize (w.ex.drop offset)
        have h2 := List.length_drop offset w.ex
        rw [hlen] at h1
        omega
      have hb : (0:Nat) < contactBatchSize := by norm_num [contactBatchSize]
      obtain ⟨tr', htr'⟩ := ih (offset + contactBatchSize)
        (acc ++ (w.ex.drop offset).take contactBatchSize)
        { offsets := tr.offsets ++ [offset], sleeps := tr.sleeps } (by omega)
      refine ⟨tr', ?_⟩
      rw [htr']
      conv_rhs => rw [hsplit, ← List.append_assoc]
    · have hbeq : (((w.ex.drop offset).take contactBatchSize).length == contactBatchSize) = false := by
        simpa using hlen
      rw [hbeq]
      simp only [Bool.false_eq_true, if_false]
      have hshort : (w.ex.drop offset).length ≤ contactBatchSize := by
        have h1 := List.length_take contactBatchSize (w.ex.drop offset)
        by_contra hc
        push_neg at hc
        apply hlen
        omega
      rw [List.take_of_length_le hshort]
      exact ⟨_, rfl⟩

/-- Over the pure store the Exchange→Thunderbird pass processes exactly
the whole Exchange store (given enough fuel for every page). -/
theorem syncExchangeToThunderbird_pure (fuel : Nat) (w : ContactWorld)
    (h : w.ex.length < fuel) :
    ∃ tr', syncExchangeToThunderbird pureContactApis fuel w
      = ((syncExchangeItems pureContactApis (jsMapGet tbKey w.tb) (w, {}) w.ex).1,
         (syncExchangeItems pureContactApis (jsMapGet tbKey w.tb) (w, {}) w.ex).2, tr') := by
  obtain ⟨tr', htr'⟩ := syncE2TLoop_pure (jsMapGet tbKey w.tb) w.ex fuel 0 w {} {}
    rfl (by omega)
  exact ⟨tr', htr'⟩

/-- Over the pure store `getAllExchangeContacts` returns the whole
Exchange store. -/
theorem getAllExchangeContacts_pure (fuel : Nat) (w : ContactWorld)
    (h : w.ex.length < fuel) :
    ∃ tr', getAllExchangeContacts pureContactApis fuel w = (w.ex, tr') := by
  obtain ⟨tr', htr'⟩ := getAllLoop_pure w fuel 0 [] {} (by omega)
  exact ⟨tr', by rw [getAllExchangeContacts, htr']; simp⟩

/-- Over the pure store the Thunderbird→Exchange pass matches against a
snapshot of the whole Exchange store and processes every local contact. -/
theorem syncThunderbirdToExchange_pure (fuel : Nat) (w : ContactWorld)
    (h : w.ex.length < fuel) :
    syncThunderbirdToExchange pureContactApis fuel w
      = syncThunderbirdItems pureContactApis (jsMapGet exKey w.ex) (w, {}) w.tb := by
  obtain ⟨tr', htr'⟩ := getAllExchangeContacts_pure fuel w h
  rw [syncThunderbirdToExchange, htr']
  rfl

/-! ### Characterizing a full reconciliation run -/

theorem find?_of_jsMapGet_some {key : α → String} {xs : List α} {k : String} {x : α}
    (hn : (xs.map key).Nodup) (h : jsMapGet key xs k = some x) :
    xs.find? (fun y => key y == k) = some x := by
  obtain ⟨hm, hk⟩ := jsMapGet_mem h
  cases hf : xs.find? (fun y => key y == k) with
  | none =>
    rw [List.find?_eq_none] at hf
    exact absurd (by simpa using hk) (hf x hm)
  | some y =>
    have hy : key y = k := by simpa using List.find?_some hf
    have hmy := List.mem_of_find?_eq_some hf
    have : y = x := List.inj_on_of_nodup_map hn hmy hm (by rw [hy, hk])
    rw [this]

theorem find?_of_jsMapGet_none {key : α → String} {xs : List α} {k : String}
    (h : jsMapGet key xs k = none) :
    xs.find? (fun y => key y == k) = none := by
  rw [List.find?_eq_none]
  intro a ha
  rw [jsMapGet_eq_none] at h
  simpa using h a ha

theorem jsMapGet_map_self {key : α → String} {S : List α} {g : α → α}
    (hg : ∀ b ∈ S, key (g b) = key b) (hn : (S.map key).Nodup) {b₀ : α} (hb₀ : b₀ ∈ S) :
    jsMapGet key (S.map g) (key b₀) = some (g b₀) := by
  have hmapeq : (S.map g).map key = S.map key := by
    rw [List.map_map]
    exact List.map_congr_left hg
  have : jsMapGet key (S.map g) (key (g b₀)) = some (g b₀) :=
    jsMapGet_self (by rw [hmapeq]; exact hn) (List.mem_map_of_mem g hb₀)
  rwa [hg b₀ hb₀] at this


theorem g1_spec_none {w : ContactWorld} (hw : GoodWorld w) {t₀ : TbContact}
    (ht₀ : t₀ ∈ w.tb) (hf : w.ex.find? (fun e => exKey e == tbKey t₀) = none) :
    g1 w t₀ = t₀ := by
  have h := applyUpds_spec exKey tbKey TbContact.id exToTbDec exToTbUpd
    (fun _ _ => rfl) w.tb hw.1 hw.2.1 w.ex hw.2.2.1 ht₀
  rw [hf] at h
  exact h

theorem g1_spec_some {w : ContactWorld} (hw : GoodWorld w) {t₀ : TbContact}
    (ht₀ : t₀ ∈ w.tb) {e : ExContact}
    (hf : w.ex.find? (fun e => exKey e == tbKey t₀) = some e) :
    g1 w t₀ = if exToTbDec t₀ e then exToTbUpd e t₀ else t₀ := by
  have h := applyUpds_spec exKey tbKey TbContact.id exToTbDec exToTbUpd
    (fun _ _ => rfl) w.tb hw.1 hw.2.1 w.ex hw.2.2.1 ht₀
  rw [hf] at h
  exact h

theorem g1_key {w : ContactWorld} (hw : GoodWorld w) {t₀ : TbContact} (ht₀ : t₀ ∈ w.tb) :
    tbKey (g1 w t₀) = tbKey t₀ ∧ (g1 w t₀).id = t₀.id := by
  cases hf : w.ex.find? (fun e => exKey e == tbKey t₀) with
  | none => rw [g1_spec_none hw ht₀ hf]; exact ⟨rfl, rfl⟩
  | some e =>
    rw [g1_spec_some hw ht₀ hf]
    have hkey : exKey e = tbKey t₀ := by simpa using List.find?_some hf
    by_cases hd : exToTbDec t₀ e = true
    · simp only [hd, if_true]
      constructor
      · show generateContactKey (convertExchangeContact e.props) = tbKey t₀
        rw [key_convertExchange]
        exact hkey
      · rfl
    · rw [if_neg hd]
      exact ⟨rfl, rfl⟩

/-- Keys of the local store after pass 1: the original keys followed by
the keys of the unmatched remote contacts; all pairwise distinct. -/
theorem tbAfter_keys {w : ContactWorld} (hw : GoodWorld w) :
    ((tbAfter w).map tbKey).Nodup := by
  rw [tbAfter, List.map_append]
  have h1 : (w.tb.map (g1 w)).map tbKey = w.tb.map tbKey := by
    rw [List.map_map]
    exact List.map_congr_left (fun t ht => (g1_key hw ht).1)
  have h2 : (creations1 w).map tbKey
      = (w.ex.filter (fun e => (jsMapGet tbKey w.tb (exKey e)).isNone)).map exKey := by
    exact passCreations_map_key exKey tbKey exToTbNew (fun _ _ => rfl) w.tb w.ex w.tbNextId
  rw [h1, h2, List.nodup_append]
  refine ⟨hw.1, ?_, ?_⟩
  · exact ((List.filter_sublist w.ex).map exKey).nodup hw.2.2.1
  · intro k hk1 hk2
    obtain ⟨t, ht, rfl⟩ := List.mem_map.mp hk1
    obtain ⟨e, he, hke⟩ := List.mem_map.mp hk2
    rw [List.mem_filter] at he
    have : jsMapGet tbKey w.tb (exKey e) = none := by
      cases h : jsMapGet tbKey w.tb (exKey e)
      · rfl
      · rw [h] at he; simp at he
    rw [jsMapGet_eq_none] at this
    exact this t ht hke.symm

/-- A key already present in the local store is never among the pass-1
creations. -/
theorem creations1_none {w : ContactWorld} {k : String}
    (hk : jsMapGet tbKey w.tb k ≠ none) :
    jsMapGet tbKey (creations1 w) k = none := by
  rw [jsMapGet_eq_none]
  intro y hy he
  obtain ⟨e, _, hnone, n, rfl⟩ := passCreations_mem exKey tbKey exToTbNew w.tb hy
  have hke : exKey e = k := he
  rw [hke] at hnone
  exact hk hnone

/-- A key already present in the Exchange store is never among the pass-2
creations. -/
theorem creations2_none {w : ContactWorld} {k : String}
    (hk : jsMapGet exKey w.ex k ≠ none) :
    jsMapGet exKey (creations2 w) k = none := by
  rw [jsMapGet_eq_none]
  intro y hy he
  obtain ⟨t, _, hnone, n, rfl⟩ := passCreations_mem tbKey exKey tbToExNew w.ex hy
  have hkt : tbKey t = k := he
  rw [hkt] at hnone
  exact hk hnone

/-- After pass 1, every Exchange-store contact of the run — original or
created by pass 2 — has a local counterpart under its key that the
pull-direction diff skips. -/
theorem run_pull_skips {w : ContactWorld} (hw : GoodWorld w) :
    ∀ ec ∈ exAfter w, ∃ t, jsMapGet tbKey (tbAfter w) (exKey ec) = some t ∧
      exToTbDec t ec = false := by
  intro ec hec
  rw [exAfter, List.mem_append] at hec
  rcases hec with hec | hec
  · cases hm : jsMapGet tbKey w.tb (exKey ec) with
    | some tstar =>
      obtain ⟨hmem, hkey⟩ := jsMapGet_mem hm
      have hc1 : jsMapGet tbKey (creations1 w) (exKey ec) = none :=
        creations1_none (by rw [hm]; simp)
      rw [tbAfter, jsMapGet_append_left hc1, ← hkey]
      have hmap : jsMapGet tbKey (w.tb.map (g1 w)) (tbKey tstar) = some (g1 w tstar) :=
        jsMapGet_map_self (fun t ht => (g1_key hw ht).1) hw.1 hmem
      refine ⟨g1 w tstar, hmap, ?_⟩
      have hf2 : w.ex.find? (fun e => exKey e == tbKey tstar) = some ec := by
        rw [hkey]
        exact find?_of_jsMapGet_some hw.2.2.1 (jsMapGet_self hw.2.2.1 hec)
      show needsUpdate (g1 w tstar).props ec.props = false
      rw [g1_spec_some hw hmem hf2]
      by_cases hd : exToTbDec tstar ec = true
      · rw [if_pos hd]
        exact needsUpdate_convert ec.props
      · rw [if_neg hd]
        exact Bool.eq_false_iff.mpr hd
    | none =>
      obtain ⟨n, hn⟩ := passCreations_lookup exKey tbKey exToTbNew (fun _ _ => rfl)
        w.tb hw.2.2.1 hec hm w.tbNextId
      rw [tbAfter]
      exact ⟨exToTbNew n ec, jsMapGet_append_right hn, needsUpdate_convert ec.props⟩
  · obtain ⟨t', ht', _, n, rfl⟩ := passCreations_mem tbKey exKey tbToExNew w.ex hec
    rw [show exKey (tbToExNew n t') = tbKey t' from rfl]
    exact ⟨t', jsMapGet_self (tbAfter_keys hw) ht', needsUpdate_convertTb t'.props⟩

/-- After pass 1, every local contact has an Exchange counterpart in the
post-run Exchange store that the push-direction diff skips. -/
theorem run_push_skips {w : ContactWorld} (hw : GoodWorld w) :
    ∀ t ∈ tbAfter w, ∃ x, jsMapGet exKey (exAfter w) (tbKey t) = some x ∧
      tbToExDec x t = false := by
  intro t ht
  have htA := ht
  rw [tbAfter, List.mem_append] at ht
  rcases ht with ht | ht
  · obtain ⟨t₀, ht₀, rfl⟩ := List.mem_map.mp ht
    rw [(g1_key hw ht₀).1]
    cases hm : jsMapGet exKey w.ex (tbKey t₀) with
    | some e₀ =>
      have hc2 : jsMapGet exKey (creations2 w) (tbKey t₀) = none :=
        creations2_none (by rw [hm]; simp)
      rw [exAfter, jsMapGet_append_left hc2, hm]
      refine ⟨e₀, rfl, ?_⟩
      have hf2 : w.ex.find? (fun e => exKey e == tbKey t₀) = some e₀ :=
        find?_of_jsMapGet_some hw.2.2.1 hm
      show thunderbirdContactNeedsUpdate (g1 w t₀).props e₀.props = false
      rw [g1_spec_some hw ht₀ hf2]
      by_cases hd : exToTbDec t₀ e₀ = true
      · rw [if_pos hd]
        exact tbNeedsUpdate_convert e₀.props
      · rw [if_neg hd]
        exact tbNeedsUpdate_of_needsUpdate_false (Bool.eq_false_iff.mpr hd)
    | none =>
      have hg : g1 w t₀ = t₀ := g1_spec_none hw ht₀ (find?_of_jsMapGet_none hm)
      rw [hg] at htA ⊢
      obtain ⟨n, hn⟩ := passCreations_lookup tbKey exKey tbToExNew (fun _ _ => rfl)
        w.ex (tbAfter_keys hw) htA hm w.exNextId
      rw [exAfter]
      exact ⟨tbToExNew n t₀, jsMapGet_append_right hn, tbNeedsUpdate_convertTb t₀.props⟩
  · obtain ⟨e, he, _, n, rfl⟩ := passCreations_mem exKey tbKey exToTbNew w.tb ht
    rw [show tbKey (exToTbNew n e) = exKey e from rfl]
    have hm : jsMapGet exKey w.ex (exKey e) = some e := jsMapGet_self hw.2.2.1 he
    have hc2 : jsMapGet exKey (creations2 w) (exKey e) = none :=
      creations2_none (by rw [hm]; simp)
    rw [exAfter, jsMapGet_append_left hc2]
    exact ⟨e, hm, tbNeedsUpdate_convert e.props⟩

/-- In the run's own pass 2, the push diff never fires: every local
contact the pass matches to an Exchange contact either came from that
contact (created or updated in pass 1) or already agreed with it. -/
theorem pass2_dec_false {w : ContactWorld} (hw : GoodWorld w) {x₀ : ExContact}
    (hx₀ : x₀ ∈ w.ex) {t : TbContact}
    (hf : (tbAfter w).find? (fun t => tbKey t == exKey x₀) = some t) :
    tbToExDec x₀ t = false := by
  have hkt : tbKey t = exKey x₀ := by simpa using List.find?_some hf
  have hmt := List.mem_of_find?_eq_some hf
  rw [tbAfter, List.mem_append] at hmt
  rcases hmt with hmt | hmt
  · obtain ⟨t₀, ht₀, rfl⟩ := List.mem_map.mp hmt
    have hkey0 : tbKey t₀ = exKey x₀ := by rw [← (g1_key hw ht₀).1]; exact hkt
    have hf2 : w.ex.find? (fun e => exKey e == tbKey t₀) = some x₀ := by
      rw [hkey0]
      exact find?_of_jsMapGet_some hw.2.2.1 (jsMapGet_self hw.2.2.1 hx₀)
    show thunderbirdContactNeedsUpdate (g1 w t₀).props x₀.props = false
    rw [g1_spec_some hw ht₀ hf2]
    by_cases hd : exToTbDec t₀ x₀ = true
    · rw [if_pos hd]
      exact tbNeedsUpdate_convert x₀.props
    · rw [if_neg hd]
      exact tbNeedsUpdate_of_needsUpdate_false (Bool.eq_false_iff.mpr hd)
  · obtain ⟨e, he, _, n, rfl⟩ := passCreations_mem exKey tbKey exToTbNew w.tb hmt
    have hke : exKey e = exKey x₀ := by rw [← hkt]; rfl
    have hee : e = x₀ := List.inj_on_of_nodup_map hw.2.2.1 he hx₀ hke
    rw [hee]
    exact tbNeedsUpdate_convert x₀.props

/-- Consequently pass 2 leaves every original Exchange contact unchanged. -/
theorem exMap_id {w : ContactWorld} (hw : GoodWorld w) :
    w.ex.map (fun x =>
      applyUpds tbKey exKey ExContact.id tbToExDec tbToExUpd w.ex (tbAfter w) x) = w.ex := by
  rw [show w.ex.map (fun x =>
      applyUpds tbKey exKey ExContact.id tbToExDec tbToExUpd w.ex (tbAfter w) x)
    = w.ex.map id from ?_, List.map_id]
  apply List.map_congr_left
  intro x₀ hx₀
  show applyUpds tbKey exKey ExContact.id tbToExDec tbToExUpd w.ex (tbAfter w) x₀ = x₀
  have h := applyUpds_spec tbKey exKey ExContact.id tbToExDec tbToExUpd
    (fun _ _ => rfl) w.ex hw.2.2.1 hw.2.2.2.1 (tbAfter w) (tbAfter_keys hw) hx₀
  cases hf : (tbAfter w).find? (fun t => tbKey t == exKey x₀) with
  | none => rw [hf] at h; exact h
  | some t =>
    rw [hf] at h
    rw [h]
    show (if tbToExDec x₀ t = true then tbToExUpd t x₀ else x₀) = x₀
    have hd := pass2_dec_false hw hx₀ hf
    rw [if_neg (by rw [hd]; simp)]

/-- The two passes of one run, characterized on the stores. -/
theorem pass1_char {w : ContactWorld} (hw : GoodWorld w) :
    ∃ res', syncExchangeItems pureContactApis (jsMapGet tbKey w.tb) (w, {}) w.ex
      = ({ tb := tbAfter w, ex := w.ex,
           tbNextId := w.tbNextId + (creations1 w).length, exNextId := w.exNextId }, res') := by
  rw [syncExchangeItems_pure]
  obtain ⟨res', hres'⟩ := passItems_store exKey tbKey TbContact.id exToTbDec exToTbUpd exToTbNew
    (fun _ _ => rfl) (fun _ _ => rfl) w.tb w.tbNextId hw.2.2.2.2.1
    w.ex id (fun _ => rfl) [] (by simp) w.tbNextId le_rfl {}
  have hsimp : w.tb.map id ++ ([] : List TbContact) = w.tb := by simp
  rw [hsimp] at hres'
  refine ⟨res', ?_⟩
  rw [hres']
  rfl

theorem pass2_char {w : ContactWorld} (hw : GoodWorld w) (tbn : Nat) :
    ∃ res', syncThunderbirdItems pureContactApis (jsMapGet exKey w.ex)
        ({ tb := tbAfter w, ex := w.ex, tbNextId := tbn, exNextId := w.exNextId }, {})
        (tbAfter w)
      = ({ tb := tbAfter w, ex := exAfter w,
           tbNextId := tbn, exNextId := w.exNextId + (creations2 w).length }, res') := by
  rw [syncThunderbirdItems_pure]
  obtain ⟨res', hres'⟩ := passItems_store tbKey exKey ExContact.id tbToExDec tbToExUpd tbToExNew
    (fun _ _ => rfl) (fun _ _ => rfl) w.ex w.exNextId hw.2.2.2.2.2
    (tbAfter w) id (fun _ => rfl) [] (by simp) w.exNextId le_rfl {}
  have hsimp : w.ex.map id ++ ([] : List ExContact) = w.ex := by simp
  rw [hsimp] at hres'
  refine ⟨res', ?_⟩
  show withEx _ (passItems tbKey ExContact.id tbToExDec tbToExUpd tbToExNew
    (jsMapGet exKey w.ex) (w.ex, w.exNextId, {}) (tbAfter w)) = _
  rw [hres']
  unfold withEx
  have hmap : w.ex.map (fun b =>
      applyUpds tbKey exKey ExContact.id tbToExDec tbToExUpd w.ex (tbAfter w) (id b))
      = w.ex := exMap_id hw
  simp only [hmap]
  rfl

/-- One full run, characterized: local store gains the pulled updates and
creations, Exchange store gains the pushed creations (and no update). -/
theorem contactSyncRun_char {w : ContactWorld} (hw : GoodWorld w) :
    ∃ r, contactSyncRun w = (wAfter w, r) := by
  obtain ⟨tr1, h1⟩ := syncExchangeToThunderbird_pure (w.ex.length + w.tb.length + 1) w
    (by omega)
  obtain ⟨res1, hp1⟩ := pass1_char hw
  obtain ⟨res2, hp2⟩ := pass2_char hw (w.tbNextId + (creations1 w).length)
  have h2 := syncThunderbirdToExchange_pure (w.ex.length + w.tb.length + 1)
    { tb := tbAfter w, ex := w.ex,
      tbNextId := w.tbNextId + (creations1 w).length, exNextId := w.exNextId }
    (by dsimp only; omega)
  refine ⟨res1.add res2, ?_⟩
  unfold contactSyncRun performBidirectionalSync
  rw [h1, hp1]
  dsimp only
  rw [h2]
  dsimp only
  rw [hp2]
  rfl

/-- A second run over the post-run world makes no change and counts no
creation or update: both skip premises hold everywhere. -/
theorem contactSyncRun_again {w : ContactWorld} (hw : GoodWorld w) :
    contactSyncRun (wAfter w) = (wAfter w, {}) := by
  obtain ⟨tr1, h1⟩ := syncExchangeToThunderbird_pure
    ((wAfter w).ex.length + (wAfter w).tb.length + 1) (wAfter w) (by omega)
  have hskip1 : passItems exKey TbContact.id exToTbDec exToTbUpd exToTbNew
      (jsMapGet tbKey (wAfter w).tb)
      ((wAfter w).tb, (wAfter w).tbNextId, ({} : SyncResults)) (wAfter w).ex
      = ((wAfter w).tb, (wAfter w).tbNextId, {}) :=
    passItems_skip _ _ _ _ _ _ _ _ (fun ec hec => run_pull_skips hw ec hec)
  have hq1 : syncExchangeItems pureContactApis (jsMapGet tbKey (wAfter w).tb)
      (wAfter w, {}) (wAfter w).ex = (wAfter w, {}) := by
    rw [syncExchangeItems_pure, hskip1]
    rfl
  have h2 := syncThunderbirdToExchange_pure
    ((wAfter w).ex.length + (wAfter w).tb.length + 1) (wAfter w) (by omega)
  have hskip2 : passItems tbKey ExContact.id tbToExDec tbToExUpd tbToExNew
      (jsMapGet exKey (wAfter w).ex)
      ((wAfter w).ex, (wAfter w).exNextId, ({} : SyncResults)) (wAfter w).tb
      = ((wAfter w).ex, (wAfter w).exNextId, {}) :=
    passItems_skip _ _ _ _ _ _ _ _ (fun t ht => run_push_skips hw t ht)
  have hq2 : syncThunderbirdItems pureContactApis (jsMapGet exKey (wAfter w).ex)
      (wAfter w, {}) (wAfter w).tb = (wAfter w, {}) := by
    rw [syncThunderbirdItems_pure, hskip2]
    rfl
  unfold contactSyncRun performBidirectionalSync
  rw [h1, hq1]
  dsimp only
  rw [h2, hq2]
  rfl


/-! ### Pagination traces: offsets and sleeps -/

theorem range_map_shift (n batch base : Nat) :
    base :: (List.range (n + 1)).map (fun i => base + batch + i * batch)
      = (List.range (n + 2)).map (fun i => base + i * batch) := by
  rw [show (List.range (n + 2)).map (fun i => base + i * batch)
      = (base + 0 * batch) :: (List.range (n + 1)).map ((fun i => base + i * batch) ∘ Nat.succ)
      from by rw [List.range_succ_eq_map, List.map_cons, List.map_map]]
  congr 1
  · omega
  · apply List.map_congr_left
    intro i _
    show base + batch + i * batch = base + (i + 1) * batch
    ring

/-- Offsets and sleeps of the contact Exchange→Thunderbird page loop over
the pure store: pages are requested at `0, batch, 2·batch, …` and one
sleep separates each consecutive pair of requests. -/
theorem syncE2TLoop_trace (snap : String → Option TbContact) (E : List ExContact) :
    ∀ (fuel offset : Nat) (w : ContactWorld) (res : SyncResults) (tr : PageTrace),
    w.ex = E → E.length - offset < fuel →
    ∃ n, (syncExchangeToThunderbirdLoop pureContactApis snap contactBatchSize
        fuel offset w res tr).2.2
      = { offsets := tr.offsets ++ (List.range (n + 1)).map
            (fun i => offset + i * contactBatchSize),
          sleeps := tr.sleeps + n } := by
  intro fuel
  induction fuel with
  | zero => intro offset w res tr _ h; omega
  | succ f ih =>
    intro offset w res tr hex hrem
    have hstep : syncExchangeToThunderbirdLoop pureContactApis snap contactBatchSize
        (f + 1) offset w res tr
      = (if ((w.ex.drop offset).take contactBatchSize).length == contactBatchSize then
           syncExchangeToThunderbirdLoop pureContactApis snap contactBatchSize f
             (offset + contactBatchSize)
             (syncExchangeItems pureContactApis snap (w, res)
               ((w.ex.drop offset).take contactBatchSize)).1
             (syncExchangeItems pureContactApis snap (w, res)
               ((w.ex.drop offset).take contactBatchSize)).2
             { offsets := tr.offsets ++ [offset], sleeps := tr.sleeps + 1 }
         else
           ((syncExchangeItems pureContactApis snap (w, res)
               ((w.ex.drop offset).take contactBatchSize)).1,
            (syncExchangeItems pureContactApis snap (w, res)
               ((w.ex.drop offset).take contactBatchSize)).2,
            { offsets := tr.offsets ++ [offset], sleeps := tr.sleeps })) := rfl
    rw [hstep, hex]
    by_cases hlen : ((E.drop offset).take contactBatchSize).length = contactBatchSize
    · have hbeq : (((E.drop offset).take contactBatchSize).length == contactBatchSize) = true := by
        simpa using hlen
      rw [hbeq, if_pos rfl]
      have hfull : contactBatchSize ≤ E.length - offset := by
        have h1 := List.length_take contactBatchSize (E.drop offset)
        have h2 := List.length_drop offset E
        rw [hlen] at h1
        omega
      have hb : (0:Nat) < contactBatchSize := by norm_num [contactBatchSize]
      have hex' : (syncExchangeItems pureContactApis snap (w, res)
          ((E.drop offset).take contactBatchSize)).1.ex = E := by
        rw [syncExchangeItems_pure]; exact hex
      obtain ⟨n, hn⟩ := ih (offset + contactBatchSize)
        (syncExchangeItems pureContactApis snap (w, res)
          ((E.drop offset).take contactBatchSize)).1
        (syncExchangeItems pureContactApis snap (w, res)
          ((E.drop offset).take contactBatchSize)).2
        { offsets := tr.offsets ++ [offset], sleeps := tr.sleeps + 1 }
        hex' (by omega)
      refine ⟨n + 1, ?_⟩
      rw [hn, List.append_assoc]
      rw [show [offset] ++ (List.range (n + 1)).map
          (fun i => offset + contactBatchSize + i * contactBatchSize)
        = (List.range (n + 2)).map (fun i => offset + i * contactBatchSize) from by
          rw [List.singleton_append, range_map_shift]]
      rw [show tr.sleeps + 1 + n = tr.sleeps + (n + 1) from by omega]
    · have hbeq : (((E.drop offset).take contactBatchSize).length == contactBatchSize) = false := by
        simpa using hlen
      rw [hbeq]
      simp only [Bool.false_eq_true, if_false]
      exact ⟨0, by simp [List.range_succ]⟩

/-- Offsets and sleeps of `getAllExchangeContacts` over the pure store:
same offset arithmetic, but NO sleep is ever inserted (the source's
`getAllExchangeContacts` loop has no `sleep` call). -/
theorem getAllLoop_trace (w : ContactWorld) :
    ∀ (fuel offset : Nat) (acc : List ExContact) (tr : PageTrace),
    w.ex.length - offset < fuel →
    ∃ n, (getAllExchangeContactsLoop pureContactApis contactBatchSize fuel offset
        w acc tr).2
      = { offsets := tr.offsets ++ (List.range (n + 1)).map
            (fun i => offset + i * contactBatchSize),
          sleeps := tr.sleeps } := by
  intro fuel
  induction fuel with
  | zero => intro offset acc tr h; omega
  | succ f ih =>
    intro offset acc tr hrem
    have hstep : getAllExchangeContactsLoop pureContactApis contactBatchSize
        (f + 1) offset w acc tr
      = (if ((w.ex.drop offset).take contactBatchSize).length == contactBatchSize then
           getAllExchangeContactsLoop pureContactApis contactBatchSize f
             (offset + contactBatchSize) w
             (acc ++ (w.ex.drop offset).take contactBatchSize)
             { offsets := tr.offsets ++ [offset], sleeps := tr.sleeps }
         else
           (acc ++ (w.ex.drop offset).take contactBatchSize,
            { offsets := tr.offsets ++ [offset], sleeps := tr.sleeps })) := rfl
    rw [hstep]
    by_cases hlen : ((w.ex.drop offset).take contactBatchSize).length = contactBatchSize
    · have hbeq : (((w.ex.drop offset).take contactBatchSize).length == contactBatchSize) = true := by
        simpa using hlen
      rw [hbeq, if_pos rfl]
      have hfull : contactBatchSize ≤ w.ex.length - offset := by
        have h1 := List.length_take contactBatchSize (w.ex.drop offset)
        have h2 := List.length_drop offset w.ex
        rw [hlen] at h1
        omega
      have hb : (0:Nat) < contactBatchSize := by norm_num [contactBatchSize]
      obtain ⟨n, hn⟩ := ih (offset + contactBatchSize)
        (acc ++ (w.ex.drop offset).take contactBatchSize)
        { offsets := tr.offsets ++ [offset], sleeps := tr.sleeps } (by omega)
      refine ⟨n + 1, ?_⟩
      rw [hn]
      rw [List.append_assoc]
      rw [show [offset] ++ (List.range (n + 1)).map
          (fun i => offset + contactBatchSize + i * contactBatchSize)
        = (List.range (n + 2)).map (fun i => offset + i * contactBatchSize) from by
          rw [List.singleton_append, range_map_shift]]
    · have hbeq : (((w.ex.drop offset).take contactBatchSize).length == contactBatchSize) = false := by
        simpa using hlen
      rw [hbeq]
      simp only [Bool.false_eq_true, if_false]
      exact ⟨0, by simp [List.range_succ]⟩

/-- The mail folder loop over a page source serving slices of a fixed
message list: processes every message, requests offsets `0, 50, 100, …`,
and sleeps between each pair of consecutive pages. -/
theorem syncFolderLoop_slices (api : EmailApis σ) (now : Int) (st : σ)
    (folderId : String) (snapHas : String → Bool) (M : List ExMessageHeader)
    (hserve : ∀ offset, api.getMessages st folderId emailBatchSize offset
      = .ok { success := true, messages := some ((M.drop offset).take emailBatchSize) }) :
    ∀ (fuel offset : Nat) (acc : Nat × Nat) (tr : PageTrace),
    M.length - offset < fuel →
    ∃ n, syncFolderLoop api now st folderId snapHas emailBatchSize fuel offset acc tr
      = ((M.drop offset).foldl (syncMessageStep api now st snapHas) acc,
         { offsets := tr.offsets ++ (List.range (n + 1)).map
             (fun i => offset + i * emailBatchSize),
           sleeps := tr.sleeps + n }) := by
  intro fuel
  induction fuel with
  | zero => intro offset acc tr h; omega
  | succ f ih =>
    intro offset acc tr hrem
    have hstep : syncFolderLoop api now st folderId snapHas emailBatchSize
        (f + 1) offset acc tr
      = (match api.getMessages st folderId emailBatchSize offset with
         | .error _ => ((acc.1, acc.2 + 1), { offsets := tr.offsets ++ [offset],
                                              sleeps := tr.sleeps })
         | .ok page =>
           if !page.success then (acc, { offsets := tr.offsets ++ [offset],
                                         sleeps := tr.sleeps })
           else
             match page.messages with
             | none => (acc, { offsets := tr.offsets ++ [offset], sleeps := tr.sleeps })
             | some messages =>
               let acc := messages.foldl (syncMessageStep api now st snapHas) acc
               if messages.length == emailBatchSize then
                 syncFolderLoop api now st folderId snapHas emailBatchSize f
                   (offset + emailBatchSize) acc
                   { offsets := tr.offsets ++ [offset], sleeps := tr.sleeps + 1 }
               else
                 (acc, { offsets := tr.offsets ++ [offset], sleeps := tr.sleeps })) := rfl
    rw [hstep, hserve offset]
    dsimp only [Bool.not_true]
    have hsplit : M.drop offset
        = (M.drop offset).take emailBatchSize ++ M.drop (offset + emailBatchSize) := by
      conv_lhs => rw [← List.take_append_drop emailBatchSize (M.drop offset)]
      rw [List.drop_drop]
    by_cases hlen : ((M.drop offset).take emailBatchSize).length = emailBatchSize
    · have hbeq : (((M.drop offset).take emailBatchSize).length == emailBatchSize) = true := by
        simpa using hlen
      rw [hbeq]
      simp only [if_true]
      have hfull : emailBatchSize ≤ M.length - offset := by
        have h1 := List.length_take emailBatchSize (M.drop offset)
        have h2 := List.length_drop offset M
        rw [hlen] at h1
        omega
      have hb : (0:Nat) < emailBatchSize := by norm_num [emailBatchSize]
      obtain ⟨n, hn⟩ := ih (offset + emailBatchSize)
        (((M.drop offset).take emailBatchSize).foldl (syncMessageStep api now st snapHas) acc)
        { offsets := tr.offsets ++ [offset], sleeps := tr.sleeps + 1 } (by omega)
      refine ⟨n + 1, ?_⟩
      rw [hn]
      conv_rhs => rw [hsplit, List.foldl_append]
      rw [List.append_assoc]
      rw [show [offset] ++ (List.range (n + 1)).map
          (fun i => offset + emailBatchSize + i * emailBatchSize)
        = (List.range (n + 2)).map (fun i => offset + i * emailBatchSize) from by
          rw [List.singleton_append, range_map_shift]]
      rw [show tr.sleeps + 1 + n = tr.sleeps + (n + 1) from by omega]
      rfl
    · have hbeq : (((M.drop offset).take emailBatchSize).length == emailBatchSize) = false := by
        simpa using hlen
      rw [hbeq]
      simp only [Bool.false_eq_true, if_false]
      have hshort : (M.drop offset).length ≤ emailBatchSize := by
        have h1 := List.length_take emailBatchSize (M.drop offset)
        by_contra hc
        push_neg at hc
        apply hlen
        omega
      rw [List.take_of_length_le hshort]
      exact ⟨0, by simp [List.range_succ]⟩

/-- `success=false` stops the contact sync page loop without raising,
keeping the counters already accumulated. -/
theorem syncE2TLoop_stops_on_failure (api : ContactApis σ) (snap : String → Option TbContact)
    (batch f offset : Nat) (st : σ) (res : SyncResults) (tr : PageTrace)
    (page : ContactsPage) (h : api.getContacts st batch offset = .ok page)
    (hs : page.success = false) :
    syncExchangeToThunderbirdLoop api snap batch (f + 1) offset st res tr
      = (st, res, { tr with offsets := tr.offsets ++ [offset] }) := by
  show (match api.getContacts st batch offset with
    | .error _ => (st, { res with errors := res.errors + 1 },
        { tr with offsets := tr.offsets ++ [offset] })
    | .ok page =>
      if !page.success then (st, res, { tr with offsets := tr.offsets ++ [offset] })
      else
        match page.contacts with
        | none => (st, res, { tr with offsets := tr.offsets ++ [offset] })
        | some contacts =>
          let q := syncExchangeItems api snap (st, res) contacts
          if contacts.length == batch then
            syncExchangeToThunderbirdLoop api snap batch f (offset + batch) q.1 q.2
              { tr with offsets := tr.offsets ++ [offset], sleeps := tr.sleeps + 1 }
          else
            (q.1, q.2, { tr with offsets := tr.offsets ++ [offset] })) = _
  obtain ⟨psucc, pcontacts⟩ := page
  subst hs
  rw [h]
  rfl

/-- A thrown page fetch breaks the contact sync loop after counting one
pass-level error. -/
theorem syncE2TLoop_stops_on_throw (api : ContactApis σ) (snap : String → Option TbContact)
    (batch f offset : Nat) (st : σ) (res : SyncResults) (tr : PageTrace)
    (msg : String) (h : api.getContacts st batch offset = .error msg) :
    syncExchangeToThunderbirdLoop api snap batch (f + 1) offset st res tr
      = (st, { res with errors := res.errors + 1 },
         { tr with offsets := tr.offsets ++ [offset] }) := by
  show (match api.getContacts st batch offset with
    | .error _ => (st, { res with errors := res.errors + 1 },
        { tr with offsets := tr.offsets ++ [offset] })
    | .ok page =>
      if !page.success then (st, res, { tr with offsets := tr.offsets ++ [offset] })
      else
        match page.contacts with
        | none => (st, res, { tr with offsets := tr.offsets ++ [offset] })
        | some contacts =>
          let q := syncExchangeItems api snap (st, res) contacts
          if contacts.length == batch then
            syncExchangeToThunderbirdLoop api snap batch f (offset + batch) q.1 q.2
              { tr with offsets := tr.offsets ++ [offset], sleeps := tr.sleeps + 1 }
          else
            (q.1, q.2, { tr with offsets := tr.offsets ++ [offset] })) = _
  rw [h]

/-- `success=false` stops `getAllExchangeContacts` without raising,
keeping the partial results already fetched. -/
theorem getAllLoop_stops_on_failure (api : ContactApis σ) (batch f offset : Nat)
    (st : σ) (acc : List ExContact) (tr : PageTrace)
    (page : ContactsPage) (h : api.getContacts st batch offset = .ok page)
    (hs : page.success = false) :
    getAllExchangeContactsLoop api batch (f + 1) offset st acc tr
      = (acc, { tr with offsets := tr.offsets ++ [offset] }) := by
  show (match api.getContacts st batch offset with
    | .error _ => (acc, { tr with offsets := tr.offsets ++ [offset] })
    | .ok page =>
      if !page.success then (acc, { tr with offsets := tr.offsets ++ [offset] })
      else
        match page.contacts with
        | none => (acc, { tr with offsets := tr.offsets ++ [offset] })
        | some contacts =>
          if contacts.length == batch then
            getAllExchangeContactsLoop api batch f (offset + batch) st (acc ++ contacts)
              { tr with offsets := tr.offsets ++ [offset] }
          else
            (acc ++ contacts, { tr with offsets := tr.offsets ++ [offset] })) = _
  obtain ⟨psucc, pcontacts⟩ := page
  subst hs
  rw [h]
  rfl


/-! ### Step lemmas for the retry wrapper -/

theorem executeWithRetry_retry {α : Type} (op : Nat → Except EwsError α) (k : Nat)
    (e : EwsError) (hop : op k = .error e) (hr : isRetryableError e = true)
    (hk : k < maxRetries) :
    executeWithRetry op k
      = ((executeWithRetry op (k + 1)).1,
         (baseRetryDelay * 2 ^ k) :: (executeWithRetry op (k + 1)).2) := by
  rw [executeWithRetry, hop]
  dsimp only
  rw [dif_pos ⟨hr, hk⟩]

theorem executeWithRetry_stop {α : Type} (op : Nat → Except EwsError α) (k : Nat)
    (e : EwsError) (hop : op k = .error e)
    (h : ¬(isRetryableError e = true ∧ k < maxRetries)) :
    executeWithRetry op k = (.error e, []) := by
  rw [executeWithRetry, hop]
  dsimp only
  rw [dif_neg h]

/-- Helper: a field pair whose difference only occurs with a blank local
value never triggers the push-direction diff. -/
theorem blank_field_no_trigger {a b : String} (h : a ≠ b → jsTrim a = "") :
    (a != b && jsTrim a != "") = false := by
  by_cases hab : a = b
  · simp [hab]
  · simp [h hab]

/-! ## Claims -/

/-- C10: for every Exchange contact, the deduplication key computed from
the converted local representation equals the key computed directly from
the remote representation — `generateContactKey (convertExchangeContact c)
= generateContactKeyFromExchange c` — both when the contact carries an
email address (both sides lowercase it) and when it does not (both sides
build the same space-joined, trimmed, lowercased
firstName/lastName/displayName composite). -/
theorem c10_key_agreement (p : ExContactProps) :
    generateContactKey (convertExchangeContact p) = generateContactKeyFromExchange p := rfl

/-- C8: the calendar free/busy mapping is the fixed bidirectional table
Free↔available, Tentative↔tentative, Busy↔busy, OOF↔out-of-office,
WorkingElsewhere↔working-elsewhere; every unknown value maps to the
busy-equivalent default in both directions; and for every status in the
table, remote→local→remote is the identity — in particular
"OOF" ↦ "out-of-office" ↦ "OOF". -/
theorem c8_freebusy_mapping :
    (convertFreeBusyStatus "Free" = "available" ∧
     convertFreeBusyStatus "Tentative" = "tentative" ∧
     convertFreeBusyStatus "Busy" = "busy" ∧
     convertFreeBusyStatus "OOF" = "out-of-office" ∧
     convertFreeBusyStatus "WorkingElsewhere" = "working-elsewhere") ∧
    (convertStatusToFreeBusy "available" = "Free" ∧
     convertStatusToFreeBusy "tentative" = "Tentative" ∧
     convertStatusToFreeBusy "busy" = "Busy" ∧
     convertStatusToFreeBusy "out-of-office" = "OOF" ∧
     convertStatusToFreeBusy "working-elsewhere" = "WorkingElsewhere") ∧
    (∀ s : String, s ≠ "Free" → s ≠ "Tentative" → s ≠ "Busy" → s ≠ "OOF" →
      s ≠ "WorkingElsewhere" → convertFreeBusyStatus s = "busy") ∧
    (∀ s : String, s ≠ "available" → s ≠ "tentative" → s ≠ "busy" →
      s ≠ "out-of-office" → s ≠ "working-elsewhere" →
      convertStatusToFreeBusy s = "Busy") ∧
    (∀ s ∈ ["Free", "Tentative", "Busy", "OOF", "WorkingElsewhere"],
      convertStatusToFreeBusy (convertFreeBusyStatus s) = s) := by
  refine ⟨by decide, by decide, ?_, ?_, by decide⟩
  · intro s h1 h2 h3 h4 h5
    unfold convertFreeBusyStatus
    rw [if_neg h1, if_neg h2, if_neg h3, if_neg h4, if_neg h5]
  · intro s h1 h2 h3 h4 h5
    unfold convertStatusToFreeBusy
    rw [if_neg h1, if_neg h2, if_neg h3, if_neg h4, if_neg h5]

/-- Witness for C8 at concrete inputs: the unknown value "Bogus" maps to
the busy default in both directions and the "OOF" row round-trips. -/
theorem c8_freebusy_mapping_witness :
    convertFreeBusyStatus "Bogus" = "busy" ∧
    convertStatusToFreeBusy "Bogus" = "Busy" ∧
    convertStatusToFreeBusy (convertFreeBusyStatus "OOF") = "OOF" :=
  ⟨c8_freebusy_mapping.2.2.1 "Bogus" (by decide) (by decide) (by decide) (by decide)
     (by decide),
   c8_freebusy_mapping.2.2.2.1 "Bogus" (by decide) (by decide) (by decide) (by decide)
     (by decide),
   c8_freebusy_mapping.2.2.2.2 "OOF" (by decide)⟩

/-- C4 counterexample: for calendar events the claim fails — a local
item whose only differing tracked field (`subject`) is empty locally
while the remote value is non-empty DOES trigger the push-direction
diff, because `thunderbirdItemNeedsUpdate` reuses the symmetric
comparison with no blank-local exemption. -/
theorem c4_counterexample :
    (({} : TbCalendarItem).subject = "" ∧
     ({ subject := "x" } : ExCalendarItem).subject ≠ "" ∧
     ({} : TbCalendarItem).body = ({ subject := "x" } : ExCalendarItem).body ∧
     ({} : TbCalendarItem).location = ({ subject := "x" } : ExCalendarItem).location ∧
     ({} : TbCalendarItem).startDate.getD 0
       = ({ subject := "x" } : ExCalendarItem).start.getD 0 ∧
     ({} : TbCalendarItem).endDate.getD 0
       = ({ subject := "x" } : ExCalendarItem).endTime.getD 0) ∧
    calendarThunderbirdItemNeedsUpdate {} { subject := "x" } = true := by
  decide

/-- C4 (amended): the blank-local-never-overwrites policy holds for the
contact push diff — a field difference with a blank (trimmed-empty)
local value never triggers `thunderbirdContactNeedsUpdate` — while the
calendar push diff simply reuses the symmetric `needsUpdate`, so an
empty local calendar field with a non-empty remote value does trigger a
push update. -/
theorem c4_blank_local_policy :
    (∀ (t : TbContactProps) (e : ExContactProps),
      (∀ f ∈ contactFieldsToCompare, f.1 t ≠ f.2 e → jsTrim (f.1 t) = "") →
      thunderbirdContactNeedsUpdate t e = false) ∧
    (∀ (tb : TbCalendarItem) (ex : ExCalendarItem),
      calendarThunderbirdItemNeedsUpdate tb ex = calendarNeedsUpdate tb ex) := by
  constructor
  · intro t e h
    simp only [thunderbirdContactNeedsUpdate, contactFieldsToCompare, List.any_cons,
      List.any_nil, Bool.or_eq_false_iff]
    refine ⟨?_, ?_, ?_, ?_, ?_, ?_, trivial⟩
    · exact blank_field_no_trigger
        (h (TbContactProps.DisplayName, ExContactProps.displayName)
          (by simp [contactFieldsToCompare]))
    · exact blank_field_no_trigger
        (h (TbContactProps.FirstName, ExContactProps.firstName)
          (by simp [contactFieldsToCompare]))
    · exact blank_field_no_trigger
        (h (TbContactProps.LastName, ExContactProps.lastName)
          (by simp [contactFieldsToCompare]))
    · exact blank_field_no_trigger
        (h (TbContactProps.PrimaryEmail, ExContactProps.email)
          (by simp [contactFieldsToCompare]))
    · exact blank_field_no_trigger
        (h (TbContactProps.WorkPhone, ExContactProps.phone)
          (by simp [contactFieldsToCompare]))
    · exact blank_field_no_trigger
        (h (TbContactProps.Company, ExContactProps.company)
          (by simp [contactFieldsToCompare]))
  · intro tb ex
    rfl

/-- Witness for C4 at a concrete input: a local contact whose only
difference against the remote is a blank display name is not pushed. -/
theorem c4_blank_local_policy_witness :
    (∀ f ∈ contactFieldsToCompare,
      f.1 ({ WorkPhone := "1" } : TbContactProps)
        ≠ f.2 ({ displayName := "D", phone := "1" } : ExContactProps) →
      jsTrim (f.1 ({ WorkPhone := "1" } : TbContactProps)) = "") ∧
    thunderbirdContactNeedsUpdate { WorkPhone := "1" } { displayName := "D", phone := "1" }
      = false :=
  ⟨by decide, c4_blank_local_policy.1 _ _ (by decide)⟩

/-- C5 counterexample: a message that carries a provider identifier is
keyed verbatim (not lowercased/trimmed) on the Thunderbird side, while
the Exchange side never uses the identifier at all — so the same message
(same id, subject, timestamp) yields different keys from the two
representations, contradicting the claim. -/
theorem c5_counterexample :
    generateMessageKey { headerMessageId := "ABC", subject := "s", date := some 5 } = "ABC" ∧
    generateMessageKeyFromExchange { id := "ABC", subject := "s", dateTimeReceived := some 5 }
      = "s-5" ∧
    generateMessageKey { headerMessageId := "ABC", subject := "s", date := some 5 }
      ≠ generateMessageKeyFromExchange
          { id := "ABC", subject := "s", dateTimeReceived := some 5 } ∧
    generateMessageKey { headerMessageId := "ABC", subject := "s", date := some 5 }
      ≠ jsToLower (jsTrim "ABC") := by
  decide

/-- C5 (amended): the Thunderbird-side key is the provider identifier
used verbatim — neither lowercased nor trimmed — when present, and
otherwise the composite `subject-timestamp` with the subject used
verbatim (`no-subject` when empty, an absent date defaulting to 0); the
Exchange-side key never uses the provider identifier: it is always the
composite `subject-receivedTimestamp` of the same verbatim form; and
when the local message lacks a provider identifier and the two sides
agree on subject and timestamp, the two keys coincide. -/
theorem c5_message_keys :
    (∀ m : TbMessage, m.headerMessageId ≠ "" →
      generateMessageKey m = m.headerMessageId) ∧
    (∀ m : TbMessage, m.headerMessageId = "" →
      generateMessageKey m
        = (if m.subject ≠ "" then m.subject else "no-subject") ++ "-"
            ++ toString (m.date.getD 0)) ∧
    (∀ x : ExMessageHeader,
      generateMessageKeyFromExchange x
        = (if x.subject ≠ "" then x.subject else "no-subject") ++ "-"
            ++ toString (x.dateTimeReceived.getD 0)) ∧
    (∀ (m : TbMessage) (x : ExMessageHeader), m.headerMessageId = "" →
      m.subject = x.subject → m.date.getD 0 = x.dateTimeReceived.getD 0 →
      generateMessageKey m = generateMessageKeyFromExchange x) := by
  refine ⟨?_, ?_, fun _ => rfl, ?_⟩
  · intro m h
    unfold generateMessageKey
    rw [if_pos h]
  · intro m h
    unfold generateMessageKey
    rw [if_neg (by simp [h])]
  · intro m x h hs hd
    unfold generateMessageKey generateMessageKeyFromExchange
    rw [if_neg (by simp [h]), hs, hd]

/-- Witness for C5 at concrete inputs. -/
theorem c5_message_keys_witness :
    generateMessageKey { headerMessageId := "ID9" } = "ID9" ∧
    generateMessageKey { subject := "s", date := some 5 } = "s-5" ∧
    generateMessageKey { subject := "s", date := some 5 }
      = generateMessageKeyFromExchange { subject := "s", dateTimeReceived := some 5 } :=
  ⟨c5_message_keys.1 _ (by decide),
   by rw [c5_message_keys.2.1 _ (by decide)]; decide,
   c5_message_keys.2.2.2 _ _ (by decide) (by decide) (by decide)⟩

/-- C6 counterexample: the claim's characterization defaults an absent
calendar instant to "now", but the code defaults it to epoch 0 — a local
item with no start/end against a remote item at instant 0 is reported
unchanged by the code, while the claimed comparison (at any nonzero
"now") reports a difference. -/
theorem c6_counterexample :
    calendarNeedsUpdate {} { start := some 0, endTime := some 0 } = false ∧
    specCalendarNeedsUpdate 1000 {} { start := some 0, endTime := some 0 } = true := by
  decide

/-- C6 (amended): `needsUpdate` returns true iff some pair in the fixed
entity-specific ordered field list differs (missing read as `""`), and
for calendar items additionally when the start or end instants differ as
epoch milliseconds with an absent instant defaulting to 0 (not "now");
the embedding is a pure function of its arguments. -/
theorem c6_diff_characterization :
    (∀ (t : TbContactProps) (e : ExContactProps),
      needsUpdate t e = true ↔
        (t.DisplayName ≠ e.displayName ∨ t.FirstName ≠ e.firstName ∨
         t.LastName ≠ e.lastName ∨ t.PrimaryEmail ≠ e.email ∨
         t.WorkPhone ≠ e.phone ∨ t.Company ≠ e.company)) ∧
    (∀ (tb : TbCalendarItem) (ex : ExCalendarItem),
      calendarNeedsUpdate tb ex = true ↔
        (tb.subject ≠ ex.subject ∨ tb.body ≠ ex.body ∨ tb.location ≠ ex.location ∨
         tb.startDate.getD 0 ≠ ex.start.getD 0 ∨
         tb.endDate.getD 0 ≠ ex.endTime.getD 0)) := by
  constructor
  · intro t e
    simp [needsUpdate, contactFieldsToCompare]
  · intro tb ex
    simp [calendarNeedsUpdate, calendarFieldsToCompare, or_assoc]

/-- C2: for every account and every entity-type sync service (email,
contacts, calendar), calling `sync(account)` while a previous sync for
the same account and entity type is in progress returns
`{success: false, error: "Sync already in progress"}`, starts no
reconciliation pass (the equations hold for every injected client and
store, so no client operation runs), and leaves the sync-state maps and
both stores unchanged. -/
theorem c2_single_flight :
    (∀ {σ : Type} (api : ContactApis σ) (abApi : AddressBookApis σ)
       (svc : ServiceState ContactStatistics) (account : Account) (now : Int)
       (fuel : Nat) (st : σ) (s : SyncState ContactStatistics),
       mapLookup svc.syncState account.id = some s → s.inProgress = true →
       contactSyncEntry api abApi svc account now fuel st
         = (.ok { success := false, error := some "Sync already in progress" }, svc, st)) ∧
    (∀ {σ : Type} (api : EmailApis σ) (svc : ServiceState EmailStatistics)
       (account : Account) (now : Int) (fuel : Nat) (st : σ)
       (s : SyncState EmailStatistics),
       mapLookup svc.syncState account.id = some s → s.inProgress = true →
       emailSyncEntry api svc account now fuel st
         = (.ok { success := false, error := some "Sync already in progress" }, svc, st)) ∧
    (∀ {σ : Type} (api : CalendarApis σ) (svc : ServiceState CalendarStatistics)
       (account : Account) (now : Int) (st : σ) (s : SyncState CalendarStatistics),
       mapLookup svc.syncState account.id = some s → s.inProgress = true →
       calendarSyncEntry api svc account now st
         = (.ok { success := false, error := some "Sync already in progress" }, svc, st)) := by
  refine ⟨?_, ?_, ?_⟩
  · intro σ api abApi svc account now fuel st s hs hp
    have hguard : syncInProgress svc account.id = true := by
      unfold syncInProgress
      rw [hs]
      exact hp
    unfold contactSyncEntry
    rw [hguard]
    rfl
  · intro σ api svc account now fuel st s hs hp
    have hguard : syncInProgress svc account.id = true := by
      unfold syncInProgress
      rw [hs]
      exact hp
    unfold emailSyncEntry
    rw [hguard]
    rfl
  · intro σ api svc account now st s hs hp
    have hguard : syncInProgress svc account.id = true := by
      unfold syncInProgress
      rw [hs]
      exact hp
    unfold calendarSyncEntry
    rw [hguard]
    rfl

/-- Witness for C2: each of the three services rejects a second sync for
the busy account "acct" over the unit store. -/
theorem c2_single_flight_witness :
    contactSyncEntry unitContactApis unitAddressBookApis busyContactSvc
        { id := "acct" } 0 1 ()
      = (.ok { success := false, error := some "Sync already in progress" },
         busyContactSvc, ()) ∧
    emailSyncEntry unitEmailApis busyEmailSvc { id := "acct" } 0 1 ()
      = (.ok { success := false, error := some "Sync already in progress" },
         busyEmailSvc, ()) ∧
    calendarSyncEntry unitCalendarApis busyCalendarSvc { id := "acct" } 0 ()
      = (.ok { success := false, error := some "Sync already in progress" },
         busyCalendarSvc, ()) :=
  ⟨c2_single_flight.1 unitContactApis unitAddressBookApis busyContactSvc
     { id := "acct" } 0 1 () { inProgress := true, statistics := {} } (by decide) rfl,
   c2_single_flight.2.1 unitEmailApis busyEmailSvc
     { id := "acct" } 0 1 () { inProgress := true, statistics := {} } (by decide) rfl,
   c2_single_flight.2.2 unitCalendarApis busyCalendarSvc
     { id := "acct" } 0 () { inProgress := true, statistics := {} } (by decide) rfl⟩

/-- C3: the retry wrapper classifies errors as retryable exactly for
network reset/timeout messages, HTTP 5xx, HTTP 429, and the fixed EWS
throttling/timeout codes; a non-retryable error propagates immediately
with no retry; and with `maxRetries = 3` retryable failures are retried
with delays `baseDelay·2^attempt` = 1000, 2000, 4000 ms, after which the
last error propagates unchanged. -/
theorem c3_retry_contract :
    (∀ (e : EwsError), isRetryableError e = true ↔
      (jsIncludes e.message "NetworkError" = true ∨
       jsIncludes e.message "ECONNRESET" = true ∨
       jsIncludes e.message "ETIMEDOUT" = true ∨
       (∃ s, e.status = some s ∧ 500 ≤ s ∧ s < 600) ∨
       e.status = some 429 ∨
       jsIncludes e.message "ErrorServerBusy" = true ∨
       jsIncludes e.message "ErrorTimeoutExpired" = true ∨
       jsIncludes e.message "ErrorConnectionFailed" = true)) ∧
    (∀ (α : Type) (op : Nat → Except EwsError α) (e : EwsError),
      op 0 = .error e → isRetryableError e = false →
      executeWithRetry op 0 = (.error e, [])) ∧
    (∀ (α : Type) (op : Nat → Except EwsError α) (f : Nat → EwsError),
      (∀ k, k ≤ 3 → op k = .error (f k)) →
      (∀ k, k ≤ 3 → isRetryableError (f k) = true) →
      executeWithRetry op 0 = (.error (f 3), [1000, 2000, 4000])) := by
  refine ⟨?_, ?_, ?_⟩
  · intro e
    unfold isRetryableError
    cases hst : e.status with
    | none => simp [hst, or_assoc]
    | some s =>
      simp [hst, Bool.or_eq_true, Bool.and_eq_true, decide_eq_true_eq, or_assoc,
        beq_iff_eq, Option.some.injEq]
  · intro α op e hop hr
    exact executeWithRetry_stop op 0 e hop (by rw [hr]; simp)
  · intro α op f hop hr
    have h3 : executeWithRetry op 3 = (.error (f 3), []) := by
      apply executeWithRetry_stop op 3 (f 3) (hop 3 le_rfl)
      intro hc
      exact absurd hc.2 (by norm_num [maxRetries])
    have h2 : executeWithRetry op 2
        = ((executeWithRetry op 3).1, 4000 :: (executeWithRetry op 3).2) := by
      have := executeWithRetry_retry op 2 (f 2) (hop 2 (by norm_num))
        (hr 2 (by norm_num)) (by norm_num [maxRetries])
      simpa [baseRetryDelay] using this
    have h1 : executeWithRetry op 1
        = ((executeWithRetry op 2).1, 2000 :: (executeWithRetry op 2).2) := by
      have := executeWithRetry_retry op 1 (f 1) (hop 1 (by norm_num))
        (hr 1 (by norm_num)) (by norm_num [maxRetries])
      simpa [baseRetryDelay] using this
    have h0 : executeWithRetry op 0
        = ((executeWithRetry op 1).1, 1000 :: (executeWithRetry op 1).2) := by
      have := executeWithRetry_retry op 0 (f 0) (hop 0 (by norm_num))
        (hr 0 (by norm_num)) (by norm_num [maxRetries])
      simpa [baseRetryDelay] using this
    rw [h0, h1, h2, h3]

/-- Witness for C3 at concrete operations: a 404 propagates with no
retry; a permanently timing-out operation is retried three times with
the exponential delays and the final error is the original one. -/
theorem c3_retry_contract_witness :
    isRetryableError { message := "ETIMEDOUT" } = true ∧
    executeWithRetry (fun _ => (.error (EwsError.mk "HTTP 404: Not Found" (some 404)) : Except EwsError Unit)) 0
      = (.error (EwsError.mk "HTTP 404: Not Found" (some 404)), []) ∧
    executeWithRetry (fun _ => (.error (EwsError.mk "ETIMEDOUT" none) : Except EwsError Unit)) 0
      = (.error (EwsError.mk "ETIMEDOUT" none), [1000, 2000, 4000]) :=
  by
  have hr : isRetryableError (EwsError.mk "ETIMEDOUT" none) = true := by decide
  have hj : jsIncludes "ETIMEDOUT" "ETIMEDOUT" = true := by decide
  have hnr : isRetryableError (EwsError.mk "HTTP 404: Not Found" (some 404)) = false := by
    decide
  exact ⟨(c3_retry_contract.1 _).mpr (Or.inr (Or.inr (Or.inl hj))),
    c3_retry_contract.2.1 Unit _ _ rfl hnr,
    c3_retry_contract.2.2 Unit _ (fun _ => EwsError.mk "ETIMEDOUT" none)
      (fun _ _ => rfl) (fun _ _ => hr)⟩

/-- C9: in both contact reconciliation passes, for every injected client:
processing continues past each item unconditionally; a per-item failure
increments `errors` by exactly one; and a failed item changes neither the
store state nor the other counters. -/
theorem c9_per_item_isolation :
    (∀ {σ : Type} (api : ContactApis σ) (snap : String → Option TbContact)
       (st : σ) (res : SyncResults) (e : ExContact) (rest : List ExContact),
       syncExchangeItems api snap (st, res) (e :: rest)
         = syncExchangeItems api snap (syncExchangeItemStep api snap (st, res) e) rest) ∧
    (∀ {σ : Type} (api : ContactApis σ) (snap : String → Option TbContact)
       (st : σ) (res : SyncResults) (e : ExContact),
       (syncExchangeItemStep api snap (st, res) e).2.errors
         = res.errors + (if exchangeItemFailed api snap st e then 1 else 0)) ∧
    (∀ {σ : Type} (api : ContactApis σ) (snap : String → Option TbContact)
       (st : σ) (res : SyncResults) (e : ExContact),
       exchangeItemFailed api snap st e = true →
       syncExchangeItemStep api snap (st, res) e
         = (st, { res with errors := res.errors + 1 })) ∧
    (∀ {σ : Type} (api : ContactApis σ) (snap : String → Option ExContact)
       (st : σ) (res : SyncResults) (t : TbContact) (rest : List TbContact),
       syncThunderbirdItems api snap (st, res) (t :: rest)
         = syncThunderbirdItems api snap (syncThunderbirdItemStep api snap (st, res) t) rest) ∧
    (∀ {σ : Type} (api : ContactApis σ) (snap : String → Option ExContact)
       (st : σ) (res : SyncResults) (t : TbContact),
       (syncThunderbirdItemStep api snap (st, res) t).2.errors
         = res.errors + (if thunderbirdItemFailed api snap st t then 1 else 0)) ∧
    (∀ {σ : Type} (api : ContactApis σ) (snap : String → Option ExContact)
       (st : σ) (res : SyncResults) (t : TbContact),
       thunderbirdItemFailed api snap st t = true →
       syncThunderbirdItemStep api snap (st, res) t
         = (st, { res with errors := res.errors + 1 })) := by
  refine ⟨fun _ _ _ _ _ _ => rfl, ?_, ?_, fun _ _ _ _ _ _ => rfl, ?_, ?_⟩
  · intro σ api snap st res e
    unfold syncExchangeItemStep exchangeItemFailed
    cases hsnap : snap (generateContactKeyFromExchange e.props) with
    | some tb =>
      dsimp only
      by_cases hd : needsUpdate tb.props e.props = true
      · rw [hd]
        cases hu : api.tbUpdate st tb.id (convertExchangeContact e.props) <;> simp
      · rw [Bool.eq_false_iff.mpr hd]
        simp
    | none =>
      dsimp only
      cases hc : api.tbCreate st (convertExchangeContact e.props) <;> simp
  · intro σ api snap st res e hfail
    unfold syncExchangeItemStep
    unfold exchangeItemFailed at hfail
    cases hsnap : snap (generateContactKeyFromExchange e.props) with
    | some tb =>
      rw [hsnap] at hfail
      dsimp only at hfail ⊢
      rw [Bool.and_eq_true] at hfail
      obtain ⟨hd, hu⟩ := hfail
      rw [hd]
      simp only [if_true]
      cases hup : api.tbUpdate st tb.id (convertExchangeContact e.props) with
      | ok st' => rw [hup] at hu; simp at hu
      | error msg => rfl
    | none =>
      rw [hsnap] at hfail
      dsimp only at hfail ⊢
      cases hc : api.tbCreate st (convertExchangeContact e.props) with
      | ok st' => rw [hc] at hfail; simp at hfail
      | error msg => rfl
  · intro σ api snap st res t
    unfold syncThunderbirdItemStep thunderbirdItemFailed
    cases hsnap : snap (generateContactKey t.props) with
    | some ex =>
      dsimp only
      by_cases hd : thunderbirdContactNeedsUpdate t.props ex.props = true
      · rw [hd]
        cases hu : api.exUpdate st ex.id (convertThunderbirdContact t.props) <;> simp
      · rw [Bool.eq_false_iff.mpr hd]
        simp
    | none =>
      dsimp only
      cases hc : api.exCreate st (convertThunderbirdContact t.props) <;> simp
  · intro σ api snap st res t hfail
    unfold syncThunderbirdItemStep
    unfold thunderbirdItemFailed at hfail
    cases hsnap : snap (generateContactKey t.props) with
    | some ex =>
      rw [hsnap] at hfail
      dsimp only at hfail ⊢
      rw [Bool.and_eq_true] at hfail
      obtain ⟨hd, hu⟩ := hfail
      rw [hd]
      simp only [if_true]
      cases hup : api.exUpdate st ex.id (convertThunderbirdContact t.props) with
      | ok st' => rw [hup] at hu; simp at hu
      | error msg => rfl
    | none =>
      rw [hsnap] at hfail
      dsimp only at hfail ⊢
      cases hc : api.exCreate st (convertThunderbirdContact t.props) with
      | ok st' => rw [hc] at hfail; simp at hfail
      | error msg => rfl

/-- Witness for C9: over the always-failing client, a failing item bumps
only the error counter and the pass continues with the rest. -/
theorem c9_per_item_isolation_witness :
    syncExchangeItemStep failContactApis (fun _ => none) ((), {}) ⟨1, {}⟩
      = ((), { errors := 1 }) ∧
    syncThunderbirdItemStep failContactApis (fun _ => none) ((), {}) ⟨1, {}⟩
      = ((), { errors := 1 }) :=
  ⟨c9_per_item_isolation.2.2.1 failContactApis (fun _ => none) () {} ⟨1, {}⟩ (by decide),
   c9_per_item_isolation.2.2.2.2.2 failContactApis (fun _ => none) () {} ⟨1, {}⟩ (by decide)⟩

/-- C7 counterexample: `getAllExchangeContacts` over a 150-contact store
requests two consecutive pages (offsets 0 and 100) but inserts NO delay
between them — its loop has no `sleep` call — contradicting the claim
that a fixed 100ms delay is inserted between consecutive pages for every
page source. -/
theorem c7_counterexample :
    (getAllExchangeContacts pureContactApis 151 c7World).2.offsets = [0, 100] ∧
    (getAllExchangeContacts pureContactApis 151 c7World).2.sleeps = 0 := by
  decide

/-- C7 (amended): batch sizes are 100 (contacts) and 50 (mail); the
paginated loops request offsets increasing by the batch size, continue
exactly while the last page was full, and after a short page have
returned/processed every item; the contact sync-pass loop and the mail
folder loop sleep once between each pair of consecutive pages, while
`getAllExchangeContacts` never sleeps; a page with `success=false` stops
the loop without raising, keeping the partial results, and a thrown
fetch breaks the sync-pass loop after counting one pass-level error. -/
theorem c7_pagination :
    contactBatchSize = 100 ∧ emailBatchSize = 50 ∧
    (∀ (snap : String → Option TbContact) (w : ContactWorld) (res : SyncResults)
       (fuel : Nat), w.ex.length < fuel →
      ∃ n, syncExchangeToThunderbirdLoop pureContactApis snap contactBatchSize
          fuel 0 w res {}
        = ((syncExchangeItems pureContactApis snap (w, res) w.ex).1,
           (syncExchangeItems pureContactApis snap (w, res) w.ex).2,
           { offsets := (List.range (n + 1)).map (fun i => i * contactBatchSize),
             sleeps := n })) ∧
    (∀ (w : ContactWorld) (fuel : Nat), w.ex.length < fuel →
      ∃ n, getAllExchangeContacts pureContactApis fuel w
        = (w.ex,
           { offsets := (List.range (n + 1)).map (fun i => i * contactBatchSize),
             sleeps := 0 })) ∧
    (∀ {σ : Type} (api : EmailApis σ) (now : Int) (st : σ) (folderId : String)
       (snapHas : String → Bool) (M : List ExMessageHeader),
      (∀ offset, api.getMessages st folderId emailBatchSize offset
        = .ok { success := true, messages := some ((M.drop offset).take emailBatchSize) }) →
      ∀ (fuel : Nat) (acc : Nat × Nat), M.length < fuel →
      ∃ n, syncFolderLoop api now st folderId snapHas emailBatchSize fuel 0 acc {}
        = (M.foldl (syncMessageStep api now st snapHas) acc,
           { offsets := (List.range (n + 1)).map (fun i => i * emailBatchSize),
             sleeps := n })) ∧
    (∀ {σ : Type} (api : ContactApis σ) (snap : String → Option TbContact)
       (batch f offset : Nat) (st : σ) (res : SyncResults) (tr : PageTrace)
       (page : ContactsPage), api.getContacts st batch offset = .ok page →
       page.success = false →
       syncExchangeToThunderbirdLoop api snap batch (f + 1) offset st res tr
         = (st, res, { tr with offsets := tr.offsets ++ [offset] })) ∧
    (∀ {σ : Type} (api : ContactApis σ) (batch f offset : Nat) (st : σ)
       (acc : List ExContact) (tr : PageTrace) (page : ContactsPage),
       api.getContacts st batch offset = .ok page → page.success = false →
       getAllExchangeContactsLoop api batch (f + 1) offset st acc tr
         = (acc, { tr with offsets := tr.offsets ++ [offset] })) ∧
    (∀ {σ : Type} (api : ContactApis σ) (snap : String → Option TbContact)
       (batch f offset : Nat) (st : σ) (res : SyncResults) (tr : PageTrace)
       (msg : String), api.getContacts st batch offset = .error msg →
       syncExchangeToThunderbirdLoop api snap batch (f + 1) offset st res tr
         = (st, { res with errors := res.errors + 1 },
            { tr with offsets := tr.offsets ++ [offset] })) := by
  have hoff : (({} : PageTrace)).offsets = ([] : List Nat) := rfl
  have hsl : (({} : PageTrace)).sleeps = 0 := rfl
  refine ⟨rfl, rfl, ?_, ?_, ?_, ?_, ?_, ?_⟩
  · intro snap w res fuel hfuel
    obtain ⟨tr', htr'⟩ := syncE2TLoop_pure snap w.ex fuel 0 w res {} rfl (by omega)
    obtain ⟨n, hn⟩ := syncE2TLoop_trace snap w.ex fuel 0 w res {} rfl (by omega)
    refine ⟨n, ?_⟩
    have heq : tr'
        = { offsets := (List.range (n + 1)).map (fun i => i * contactBatchSize),
            sleeps := n } := by
      have h22 : (syncExchangeToThunderbirdLoop pureContactApis snap contactBatchSize
          fuel 0 w res {}).2.2 = tr' := by rw [htr']
      rw [hn, hoff, hsl, List.nil_append, Nat.zero_add] at h22
      rw [← h22]
      congr 1
      exact List.map_congr_left (fun i _ => Nat.zero_add _)
    rw [htr', heq, List.drop_zero]
  · intro w fuel hfuel
    obtain ⟨tr', htr'⟩ := getAllExchangeContacts_pure fuel w hfuel
    obtain ⟨n, hn⟩ := getAllLoop_trace w fuel 0 [] {} (by omega)
    refine ⟨n, ?_⟩
    have heq : tr'
        = { offsets := (List.range (n + 1)).map (fun i => i * contactBatchSize),
            sleeps := 0 } := by
      have h2 : (getAllExchangeContactsLoop pureContactApis contactBatchSize fuel 0
          w [] {}).2 = tr' := by
        have h3 := htr'
        rw [getAllExchangeContacts] at h3
        rw [h3]
      rw [hn, hoff, hsl, List.nil_append] at h2
      rw [← h2]
      congr 1
      exact List.map_congr_left (fun i _ => Nat.zero_add _)
    rw [htr', heq]
  · intro σ api now st folderId snapHas M hserve fuel acc hfuel
    obtain ⟨n, hn⟩ := syncFolderLoop_slices api now st folderId snapHas M hserve
      fuel 0 acc {} (by omega)
    refine ⟨n, ?_⟩
    rw [hn, hoff, hsl, List.nil_append, Nat.zero_add, List.drop_zero]
    congr 2
    exact List.map_congr_left (fun i _ => Nat.zero_add _)
  · intro σ api snap batch f offset st res tr page h hs
    exact syncE2TLoop_stops_on_failure api snap batch f offset st res tr page h hs
  · intro σ api batch f offset st acc tr page h hs
    exact getAllLoop_stops_on_failure api batch f offset st acc tr page h hs
  · intro σ api snap batch f offset st res tr msg h
    exact syncE2TLoop_stops_on_throw api snap batch f offset st res tr msg h

/-- Witness for C7: a 150-contact store is fetched without sleeping, and
a throwing fetch stops the sync-pass loop after one pass-level error. -/
theorem c7_pagination_witness :
    (∃ n, getAllExchangeContacts pureContactApis 151 c7World
      = (c7World.ex,
         { offsets := (List.range (n + 1)).map (fun i => i * contactBatchSize),
           sleeps := 0 })) ∧
    syncExchangeToThunderbirdLoop failContactApis (fun _ => none) contactBatchSize
        5 0 () {} {}
      = ((), { errors := 1 }, { offsets := [0], sleeps := 0 }) :=
  ⟨c7_pagination.2.2.2.1 c7World 151 (by simp [c7World]),
   c7_pagination.2.2.2.2.2.2.2 failContactApis (fun _ => none) contactBatchSize
     4 0 () {} {} "NetworkError" rfl⟩

/-- C1 counterexample: on stores where two remote contacts share a
deduplication key (same email), the second of two back-to-back sync runs
still reports updates — the claimed unconditional idempotence fails. -/
theorem c1_counterexample :
    ¬((contactSyncTwice c1CexWorld).2.created = 0 ∧
      (contactSyncTwice c1CexWorld).2.updated = 0) := by
  decide

/-- C1 (amended): if `sync(account)` is run to completion and then run a
second time with no intervening change to the local or the remote store,
and the deduplication keys and store ids are pairwise distinct on each
side (with fresh id counters), then the second run's result has
`created = 0` and `updated = 0`: every remote item matches an existing
local item by key, the field diff reports no difference in either
direction, and every item is skipped. -/
theorem c1_sync_idempotent (w : ContactWorld)
    (hTk : (w.tb.map tbKey).Nodup) (hTi : (w.tb.map TbContact.id).Nodup)
    (hEk : (w.ex.map exKey).Nodup) (hEi : (w.ex.map ExContact.id).Nodup)
    (hTf : ∀ t ∈ w.tb, t.id < w.tbNextId) (hEf : ∀ e ∈ w.ex, e.id < w.exNextId) :
    (contactSyncTwice w).2.created = 0 ∧ (contactSyncTwice w).2.updated = 0 := by
  have hw : GoodWorld w := ⟨hTk, hTi, hEk, hEi, hTf, hEf⟩
  obtain ⟨r, hr⟩ := contactSyncRun_char hw
  unfold contactSyncTwice
  rw [show (contactSyncRun w).1 = wAfter w from by rw [hr]]
  rw [contactSyncRun_again hw]
  exact ⟨rfl, rfl⟩

/-- Witness for C1 on concrete well-keyed stores. -/
theorem c1_sync_idempotent_witness :
    ((c1WitnessWorld.tb.map tbKey).Nodup ∧ (c1WitnessWorld.ex.map exKey).Nodup) ∧
    ((contactSyncTwice c1WitnessWorld).2.created = 0 ∧
     (contactSyncTwice c1WitnessWorld).2.updated = 0) :=
  ⟨⟨by decide, by decide⟩,
   c1_sync_idempotent c1WitnessWorld (by decide) (by decide) (by decide) (by decide)
     (by decide) (by decide)⟩

end ExchangeIntegrator
